import Mathlib

/-!
Verification of the ContRAG contract-ingestion pipeline.

This file gives a shallow embedding, in Lean 4, of the algorithmic core of
the ContRAG repository (contract extraction / merge / cache / persist
pipeline and the NL-to-Cypher query layer), and proves the behavioural
claims about it.

Conventions of the embedding:
* Python strings are Lean `String`s (sequences of `Char`); Python string
  primitives (`lower`, `strip`, `find`, slicing, ...) are re-implemented
  below over `String.data`.
* Python `float` values are modelled as `Rat` (the merge, cache and
  extraction logic only compares, adds and multiplies; no rounding is
  relevant to any claim).
* `None`-able values are `Option`; Python truthiness of each type is
  modelled by an explicit `pyTruthy...` function.
* External collaborators (the generative model, the `re` regex engine,
  `datetime.strptime`, the Neo4j driver) are oracles: function-typed
  parameters whose outcomes the theorems quantify over.  A fallible
  external call is an `Except`/`Option`-valued oracle.
* Python `try/except` control flow is embedded with `Except`: a raised
  exception is an `Except.error` value, and an `except` block is a
  `match` on that value.  A Lean function with a non-`Except` result type
  is one that (like its Python counterpart) can never propagate an
  exception.
-/

namespace ContRAG

/-! ## Python string primitives -/

/-- Model of `s.lower()`. -/
def pyLower (s : String) : String := ⟨s.data.map Char.toLower⟩

/-- Model of `s.upper()`. -/
def pyUpper (s : String) : String := ⟨s.data.map Char.toUpper⟩

/-- Whitespace trim of a character list from the front and the back
(`str.strip()` with no argument). -/
def stripChars (l : List Char) : List Char :=
  ((l.dropWhile Char.isWhitespace).reverse.dropWhile Char.isWhitespace).reverse

/-- Model of `s.strip()`. -/
def pyStrip (s : String) : String := ⟨stripChars s.data⟩

/-- Model of `needle in hay` on character lists. -/
def listContainsSub (needle : List Char) : List Char → Bool
  | [] => needle.isEmpty
  | c :: t => needle.isPrefixOf (c :: t) || listContainsSub needle t

/-- Python `needle in hay` for strings. -/
def containsStr (hay needle : String) : Bool :=
  listContainsSub needle.data hay.data

/-- Index of the first occurrence of `needle` (`hay.find(needle)`), `none`
for Python's `-1`. -/
def findSubIdx (needle : List Char) : List Char → Option Nat
  | [] => if needle.isEmpty then some 0 else none
  | c :: t =>
    if needle.isPrefixOf (c :: t) then some 0
    else (findSubIdx needle t).map (· + 1)

/-- Model of `hay.find(needle)` as an `Option Nat`. -/
def findStr (hay needle : String) : Option Nat := findSubIdx needle.data hay.data

/-- Index of the last occurrence of `needle` (`hay.rfind(needle)`), `none`
for Python's `-1`. -/
def rfindSubIdx (needle : List Char) : List Char → Option Nat
  | [] => if needle.isEmpty then some 0 else none
  | c :: t =>
    match rfindSubIdx needle t with
    | some i => some (i + 1)
    | none => if needle.isPrefixOf (c :: t) then some 0 else none

/-- Model of `hay.rfind(needle)` as an `Option Nat`. -/
def rfindStr (hay needle : String) : Option Nat := rfindSubIdx needle.data hay.data

/-- Model of `s.startswith(p)`. -/
def startsWithStr (s p : String) : Bool := p.data.isPrefixOf s.data

/-- Model of `s[:n]`. -/
def pyTake (n : Nat) (s : String) : String := ⟨s.data.take n⟩

/-- Model of `s[n:]`. -/
def pyDrop (n : Nat) (s : String) : String := ⟨s.data.drop n⟩

/-- Model of `s[a:b]` for non-negative bounds. -/
def pySlice (s : String) (a b : Nat) : String := ⟨(s.data.take b).drop a⟩

/-- Python `len(s)`. -/
def pyLen (s : String) : Nat := s.data.length

/-- Model of `s.replace(",", "")`. -/
def removeCommas (s : String) : String := ⟨s.data.filter (fun c => c ≠ ',')⟩

/-- Model of `s.split("\n")` (keeps empty fragments, exactly like Python `str.split`
with an explicit separator). -/
def splitLinesAux : List Char → List Char → List (List Char)
  | [], acc => [acc.reverse]
  | c :: t, acc =>
    if c = '\n' then acc.reverse :: splitLinesAux t []
    else splitLinesAux t (c :: acc)

/-- Model of `s.split("\n")`. -/
def splitLines (s : String) : List String :=
  (splitLinesAux s.data []).map (fun l => (⟨l⟩ : String))

/-- Model of `"\n".join(ls)`. -/
def joinLines (ls : List String) : String :=
  ⟨List.intercalate ['\n'] (ls.map String.data)⟩

/-- Model of `any(term in hay for term in terms)` — the membership scan used
throughout the rule-based extractor. -/
def anyTermIn (hay : String) (terms : List String) : Bool :=
  terms.any (fun t => containsStr hay t)

/-! ## Contract-type classifier (`SecuritiesContractExtractor._detect_contract_type`)

Faithful to `src/backend/src/securities_extraction.py`, lines 49-68: the
text is lowercased once and an ordered `if/elif` chain of keyword-group
membership tests picks the type; the final `else` returns the generic
`"Securities Agreement"`. -/

def detectContractType (contractText : String) : String :=
  let textLower := pyLower contractText
  if anyTermIn textLower ["license agreement", "licensing", "intellectual property"] then
    "License Agreement"
  else if anyTermIn textLower ["employment agreement", "employment letter", "letter agreement"] then
    "Employment Agreement"
  else if anyTermIn textLower ["settlement agreement", "mutual release"] then
    "Settlement Agreement"
  else if anyTermIn textLower ["lease agreement", "supplemental lease", "landlord", "tenant"] then
    "Lease Agreement"
  else if anyTermIn textLower ["securities purchase", "stock purchase", "investment agreement"] then
    "Securities Purchase Agreement"
  else if anyTermIn textLower ["warrant agreement", "warrant purchase"] then
    "Warrant Agreement"
  else if anyTermIn textLower ["rights agreement", "investor rights"] then
    "Rights Agreement"
  else
    "Securities Agreement"

/-- The classifier's vocabulary as an ordered list of (keyword group,
resulting type), written down from the specification's wording
("ordered keyword scan over a fixed vocabulary, license → employment/letter
→ settlement → lease → securities-purchase → warrant → rights → default
generic"); used to compare the code against the spec. -/
def keywordGroups : List (List String × String) :=
  [(["license agreement", "licensing", "intellectual property"], "License Agreement"),
   (["employment agreement", "employment letter", "letter agreement"], "Employment Agreement"),
   (["settlement agreement", "mutual release"], "Settlement Agreement"),
   (["lease agreement", "supplemental lease", "landlord", "tenant"], "Lease Agreement"),
   (["securities purchase", "stock purchase", "investment agreement"], "Securities Purchase Agreement"),
   (["warrant agreement", "warrant purchase"], "Warrant Agreement"),
   (["rights agreement", "investor rights"], "Rights Agreement")]

/-- Spec-side classifier: first group (in order) with any keyword present
in the lowercased text wins; default when no group matches. -/
def scanKeywordGroupsAux (textLower : String) : List (List String × String) → String
  | [] => "Securities Agreement"
  | (kws, ty) :: rest =>
    if anyTermIn textLower kws then ty else scanKeywordGroupsAux textLower rest

/-- Spec-side classifier over the fixed vocabulary. -/
def scanKeywordGroups (contractText : String) : String :=
  scanKeywordGroupsAux (pyLower contractText) keywordGroups

/-! ## File cache index (`EnhancedBatchProcessor`)

Faithful to `src/backend/src/batch_ingest_contracts.py`.  The cache is the
JSON dictionary `processed_data_cache`: an association of file path to a
cache entry.  `is_contract_cached` (lines 141-151) reports a hit iff an
entry exists and the file's current mtime is `<=` the entry's stored
`mtime` (`.get('mtime', 0)` — absent stored mtimes default to `0`). -/

/-- One value of `processed_data_cache` (written by `cache_contract_data`,
lines 157-172).  `mtime` is optional because `is_contract_cached` reads it
with `.get('mtime', 0)`. -/
structure CacheEntry where
  contractId : String
  title : String
  contractType : String
  summary : String
  executionDate : String
  totalOfferingAmount : Option Rat
  partiesCount : Nat
  securitiesCount : Nat
  conditionsCount : Nat
  metadata : String
  processedAt : String
  mtime : Option Rat
deriving DecidableEq

/-- The cache index: `dict` keyed by file path. -/
abbrev CacheIndex := List (String × CacheEntry)

/-- Model of `self.processed_data_cache.get(file_path)`. -/
def cacheLookup (cache : CacheIndex) (path : String) : Option CacheEntry :=
  List.lookup path cache

/-- Model of `EnhancedBatchProcessor.is_contract_cached` (lines 141-151).
`fileMtime` is `os.path.getmtime(file_path)` for the (existing) file. -/
def isContractCached (cache : CacheIndex) (path : String) (fileMtime : Rat) : Bool :=
  match cacheLookup cache path with
  | some cachedData => decide (fileMtime ≤ cachedData.mtime.getD 0)
  | none => false

/-! ## Truncation of long contract texts
(`EnhancedBatchProcessor.process_single_contract`, lines 275-279) -/

/-- The elision marker inserted between the head and tail windows. -/
def truncationMarker : String := "\n...[MIDDLE CONTENT TRUNCATED]...\n"

/-- Lines 276-279: texts longer than 20000 characters are replaced by
`text[:15000] + marker + text[-5000:]`; shorter texts pass unchanged. -/
def truncateContractText (s : String) : String :=
  if s.data.length > 20000 then
    ⟨s.data.take 15000 ++ truncationMarker.data ++ s.data.drop (s.data.length - 5000)⟩
  else s

/-! ## Rule-based extraction
(`SecuritiesContractExtractor._extract_with_rules` and its helpers,
`src/backend/src/securities_extraction.py`, lines 375-683)

The Python `re` module and `datetime.strptime` are external collaborators;
they are modelled by the oracle bundle `ReEnv` below.  `float(...)` and
`int(...)` are likewise oracles (`none` models a raised `ValueError`).
Python exceptions are `Except.error` values: an extraction helper whose
Python body can raise an uncaught exception returns `Except String _`,
and every `try/except` in the source is a `match` on such a value. -/

/-- A `datetime.date`. -/
structure PyDate where
  year : Nat
  month : Nat
  day : Nat
deriving DecidableEq

/-- An `re` match object: the whole matched text (`group(0)`) and the list
of capture groups (`group(1)`, `group(2)`, ...; `none` models a group that
did not participate in the match). -/
structure ReMatch where
  whole : String
  groups : List (Option String)
deriving DecidableEq

/-- Oracle bundle for the external primitives used by the rule-based
extractor: `re.search`, `re.finditer`, `re.split`, `datetime.strptime`,
`float` and `int` (the latter three return `none` where Python raises
`ValueError`). -/
structure ReEnv where
  search : String → String → Option ReMatch
  finditer : String → String → List ReMatch
  splitOn : String → String → List String
  strptime : String → String → Option PyDate
  pyFloat : String → Option Rat
  pyInt : String → Option Int

/-- A match with a non-empty, fully-participating group list. -/
def GroupsOk (m : ReMatch) : Prop :=
  m.groups ≠ [] ∧ ∀ g ∈ m.groups, g.isSome = true

/-- Well-formedness of the regex oracle, true of Python `re` on every
pattern the extractor uses: each of those patterns has at least one capture
group and all its groups are mandatory, so any match carries a non-empty,
fully-participating group list. -/
def ReEnvWF (env : ReEnv) : Prop :=
  (∀ p t m, env.search p t = some m → GroupsOk m) ∧
  (∀ p t m, m ∈ env.finditer p t → GroupsOk m)

/-- Model of `match.group(i)` immediately followed by a string method
(`.strip()` / `.replace()` / `.lower()`): raises `IndexError` when the
group does not exist and `AttributeError` (from calling a method on
`None`) when it did not participate. -/
def getGroup (m : ReMatch) (i : Nat) : Except String String :=
  match m.groups[i - 1]? with
  | some (some s) => .ok s
  | some none => .error "AttributeError"
  | none => .error "IndexError"

/-- The six date regex templates (lines 380-387). -/
def datePatterns : List String :=
  ["(?:executed|dated|effective|entered into)\\s+(?:as\\s+of\\s+)?(?:on\\s+)?([A-Za-z]+\\s+\\d\x7b1,2\x7d,?\\s+\\d\x7b4\x7d)",
   "this\\s+(\\d\x7b1,2\x7d)\\w\x7b0,2\x7d\\s+day\\s+of\\s+([A-Za-z]+),?\\s+(\\d\x7b4\x7d)",
   "(\\d\x7b1,2\x7d/\\d\x7b1,2\x7d/\\d\x7b4\x7d)",
   "(\\d\x7b4\x7d-\\d\x7b2\x7d-\\d\x7b2\x7d)",
   "as\\s+of\\s+([A-Za-z]+\\s+\\d\x7b1,2\x7d,?\\s+\\d\x7b4\x7d)",
   "made.*?(?:as\\s+of\\s+|on\\s+)?([A-Za-z]+\\s+\\d\x7b1,2\x7d,?\\s+\\d\x7b4\x7d)"]

/-- The ordered `strptime` format list (lines 397-404). -/
def dateFormats : List String :=
  ["%B %d, %Y", "%B %d %Y", "%m/%d/%Y", "%Y-%m-%d", "%d %B %Y", "%B %Y"]

/-- Model of `match.group(1) if match.groups() else match.group(0)` (line 393). -/
def group1OrWhole (m : ReMatch) : Option String :=
  if m.groups.isEmpty then some m.whole else m.groups.headD none

/-- The inner format loop (lines 406-416): first format that parses wins;
the `"%B %Y"` format prepends day 1. -/
def tryDateFormats (env : ReEnv) (dateStr : String) : List String → Option PyDate
  | [] => none
  | fmt :: rest =>
    let parsed :=
      if fmt = "%B %Y" then env.strptime ("1 " ++ dateStr) "%d %B %Y"
      else env.strptime dateStr fmt
    match parsed with
    | some d => some d
    | none => tryDateFormats env dateStr rest

/-- The date pattern loop (lines 389-423), searched over `text[:3000]`.
The whole per-pattern body sits in `try: ... except Exception: continue`,
so no exception escapes: a failed group access simply moves to the next
pattern, hence the total (`Option`) result type. -/
def extractExecutionDateGo (env : ReEnv) (text : String) :
    List String → Option PyDate
  | [] => none
  | p :: rest =>
    match env.search p (pyTake 3000 text) with
    | none => extractExecutionDateGo env text rest
    | some m =>
      match group1OrWhole m with
      | none => extractExecutionDateGo env text rest
      | some ds0 =>
        match tryDateFormats env (pyStrip ds0) dateFormats with
        | some d => some d
        | none => extractExecutionDateGo env text rest

/-- Execution-date extraction over the fixed pattern list. -/
def extractExecutionDate (env : ReEnv) (text : String) : Option PyDate :=
  extractExecutionDateGo env text datePatterns

/-- The six monetary-amount regex alternatives (lines 426-433). -/
def amountPatterns : List String :=
  ["aggregate\\s+purchase\\s+price.*?\\$\\s*([\\d,]+(?:\\.\\d\x7b2\x7d)?)",
   "total\\s+(?:offering|purchase\\s+price).*?\\$\\s*([\\d,]+(?:\\.\\d\x7b2\x7d)?)",
   "purchase\\s+price.*?is\\s+\\$\\s*([\\d,]+(?:\\.\\d\x7b2\x7d)?)",
   "\\$\\s*([\\d,]+(?:\\.\\d\x7b2\x7d)?)\\s*(?:million|mil)",
   "consideration.*?\\$\\s*([\\d,]+(?:\\.\\d\x7b2\x7d)?)",
   "(?:for|is)\\s+\\$\\s*([\\d,]+(?:\\.\\d\x7b2\x7d)?)"]

/-- The amount pattern loop (lines 435-447) over `text[:5000]`: the first
pattern whose group parses as a float wins; a `million` marker in the whole
match multiplies by 1000000.  Only `ValueError` is caught, so a group
access failure would propagate (it cannot, for a well-formed oracle). -/
def extractAmountGo (env : ReEnv) (text : String) :
    List String → Except String (Option Rat)
  | [] => .ok none
  | p :: rest =>
    match env.search p (pyTake 5000 text) with
    | none => extractAmountGo env text rest
    | some m => do
      let g1 ← getGroup m 1
      match env.pyFloat (removeCommas g1) with
      | none => extractAmountGo env text rest
      | some amount =>
        .ok (some (if containsStr (pyLower m.whole) "million" then
          amount * 1000000 else amount))

/-- A `Party` pydantic model projected to the fields the rule-based
extractor and the merger populate (`securities_data_models.py`; the role
enum is encoded by its string value). -/
structure Party where
  name : String
  role : String
  entityType : Option String := none
  jurisdiction : Option String := none
deriving DecidableEq

/-- The two party patterns (lines 450-453): the first has two capture
groups, the second one. -/
def partyPatterns : List String :=
  ["(?:between|by and between)\\s+([^,\\n]+?),?\\s+a\\s+([^,\\n]*?)\\s+(?:corporation|company|llc|inc)",
   "([A-Z][A-Za-z\\s&]+(?:Inc|LLC|Corporation|Corp)\\.?)"]

/-- Role assignment (lines 487-489 and 504-506): purchaser unless the name
holds a known-issuer keyword. -/
def partyRoleFor (name : String) : String :=
  if anyTermIn (pyLower name) ["abeona", "access", "therapeutics"] then "issuer"
  else "purchaser"

/-- Jurisdiction from entity info (lines 474-479). -/
def jurisdictionFor (entityInfo : String) : Option String :=
  let e := pyLower entityInfo
  if containsStr e "delaware" then some "Delaware"
  else if containsStr e "nevada" then some "Nevada"
  else if containsStr e "new york" then some "New York"
  else none

/-- Entity type from entity info (lines 481-484). -/
def entityTypeFor (entityInfo : String) : Option String :=
  let e := pyLower entityInfo
  if anyTermIn e ["corp", "corporation"] then some "Corporation"
  else if containsStr e "llc" then some "LLC"
  else none

/-- Names that disqualify a single-group party match (line 501). -/
def partySkipTerms : List String :=
  ["pursuant", "whereas", "section", "agreement", "company agrees"]

/-- The body of the per-match party loop (lines 460-507), threading the
accumulated parties and the `seen_party_names` set.  The group accesses
are not inside any `try`, so a failed access propagates. -/
def processPartyMatch (st : List Party × List String) (m : ReMatch) :
    Except String (List Party × List String) := do
  let (parties, seen) := st
  if m.groups.length ≥ 2 then do
    let name0 ← getGroup m 1
    let entity0 ← getGroup m 2
    let name := pyStrip name0
    let entityInfo := pyStrip entity0
    if seen.contains (pyLower name) then
      .ok (parties, seen)
    else
      .ok (parties ++
          [⟨name, partyRoleFor name, entityTypeFor entityInfo, jurisdictionFor entityInfo⟩],
        seen ++ [pyLower name])
  else do
    let name0 ← getGroup m 1
    let name := pyStrip name0
    if pyLen name > 5 ∧ seen.contains (pyLower name) = false ∧
        anyTermIn (pyLower name) partySkipTerms = false then
      .ok (parties ++ [⟨name, partyRoleFor name, none, none⟩], seen ++ [pyLower name])
    else
      .ok (parties, seen)

/-- Model of `for match in matches:` over one pattern's `finditer` results. -/
def forPartyMatches : List ReMatch → (List Party × List String) →
    Except String (List Party × List String)
  | [], st => .ok st
  | m :: ms, st => do
    let st' ← processPartyMatch st m
    forPartyMatches ms st'

/-- The party pattern loop (lines 458-507) over `text[:2000]`: both
patterns contribute, in order. -/
def extractPartiesGo (env : ReEnv) (text : String) :
    List String → (List Party × List String) →
    Except String (List Party × List String)
  | [], st => .ok st
  | p :: rest, st => do
    let st' ← forPartyMatches (env.finditer p (pyTake 2000 text)) st
    extractPartiesGo env text rest st'

/-- Party extraction (lines 449-510). -/
def extractParties (env : ReEnv) (text : String) : Except String (List Party) := do
  let st ← extractPartiesGo env text partyPatterns ([], [])
  .ok st.1

/-- A rule-extracted security: the dictionary built by
`_extract_securities_info` (lines 524-622). -/
structure RuleSecurity where
  securityType : String
  numberOfShares : Option Int := none
  purchasePricePerShare : Option Rat := none
  exercisePrice : Option Rat := none
deriving DecidableEq

/-- Common-stock share-count patterns (lines 529-533). -/
def stockPatterns : List String :=
  ["(\\d\x7b1,3\x7d(?:,\\d\x7b3\x7d)*)\\s+shares?\\s+of\\s+common\\s+stock",
   "common\\s+stock.*?(\\d\x7b1,3\x7d(?:,\\d\x7b3\x7d)*)\\s+shares?",
   "(\\d\x7b1,3\x7d(?:,\\d\x7b3\x7d)*)\\s+shares?\\s+of.*?common"]

/-- Preferred-stock share-count patterns (lines 550-554). -/
def preferredPatterns : List String :=
  ["(\\d\x7b1,3\x7d(?:,\\d\x7b3\x7d)*)\\s+shares?\\s+of\\s+preferred\\s+stock",
   "preferred\\s+stock.*?(\\d\x7b1,3\x7d(?:,\\d\x7b3\x7d)*)\\s+shares?",
   "series\\s+[A-Z]\\s+preferred.*?(\\d\x7b1,3\x7d(?:,\\d\x7b3\x7d)*)\\s+shares?"]

/-- Warrant-count patterns (lines 571-575). -/
def warrantPatterns : List String :=
  ["(\\d\x7b1,3\x7d(?:,\\d\x7b3\x7d)*)\\s+warrants?",
   "warrant.*?(\\d\x7b1,3\x7d(?:,\\d\x7b3\x7d)*)",
   "exercise.*?(\\d\x7b1,3\x7d(?:,\\d\x7b3\x7d)*)\\s+warrants?"]

/-- The exercise-price pattern (line 586). -/
def exercisePricePattern : String :=
  "exercise\\s+price.*?\\$\\s*([\\d,]+(?:\\.\\d\x7b2\x7d)?)"

/-- Price-per-share patterns (lines 604-608). -/
def pricePatterns : List String :=
  ["\\$\\s*([\\d,]+(?:\\.\\d\x7b2\x7d)?)\\s+per\\s+share",
   "purchase\\s+price.*?\\$\\s*([\\d,]+(?:\\.\\d\x7b2\x7d)?)\\s+per\\s+share",
   "price\\s+of\\s+\\$\\s*([\\d,]+(?:\\.\\d\x7b2\x7d)?)\\s+per\\s+share"]

/-- The share-count pattern loops for common and preferred stock
(lines 535-547 and 556-568): first pattern over `text[:5000]` whose group
parses as an `int` appends one security; `ValueError` continues. -/
def extractSharesGo (env : ReEnv) (text : String) (secType : String) :
    List String → Except String (Option RuleSecurity)
  | [] => .ok none
  | p :: rest =>
    match env.search p (pyTake 5000 text) with
    | none => extractSharesGo env text secType rest
    | some m => do
      let g1 ← getGroup m 1
      match env.pyInt (removeCommas g1) with
      | none => extractSharesGo env text secType rest
      | some shares => .ok (some ⟨secType, some shares, none, none⟩)

/-- The warrant pattern loop (lines 577-601): same scheme, plus a nested
exercise-price lookup whose own `float` failure is swallowed
(`except ValueError: pass`). -/
def extractWarrantGo (env : ReEnv) (text : String) :
    List String → Except String (Option RuleSecurity)
  | [] => .ok none
  | p :: rest =>
    match env.search p (pyTake 5000 text) with
    | none => extractWarrantGo env text rest
    | some m => do
      let g1 ← getGroup m 1
      match env.pyInt (removeCommas g1) with
      | none => extractWarrantGo env text rest
      | some warrants => do
        let exercisePrice ←
          match env.search exercisePricePattern (pyTake 5000 text) with
          | none => pure (none : Option Rat)
          | some em => do
            let eg ← getGroup em 1
            pure (env.pyFloat (removeCommas eg))
        .ok (some ⟨"warrant", some warrants, none, exercisePrice⟩)

/-- Model of `securities[-1]['purchase_price_per_share'] = price` (line 617):
update of the most recently appended security, no-op on an empty list. -/
def updateLast (f : α → α) : List α → List α
  | [] => []
  | [x] => [f x]
  | x :: y :: t => x :: updateLast f (y :: t)

/-- The price-per-share loop (lines 610-620): the first parsed price
attaches to the most recently matched security. -/
def extractPriceGo (env : ReEnv) (text : String) (securities : List RuleSecurity) :
    List String → Except String (List RuleSecurity)
  | [] => .ok securities
  | p :: rest =>
    match env.search p (pyTake 5000 text) with
    | none => extractPriceGo env text securities rest
    | some m => do
      let g1 ← getGroup m 1
      match env.pyFloat (removeCommas g1) with
      | none => extractPriceGo env text securities rest
      | some price =>
        .ok (updateLast (fun s => {s with purchasePricePerShare := some price}) securities)

/-- Model of `SecuritiesContractExtractor._extract_securities_info` (lines 524-622). -/
def extractSecuritiesInfo (env : ReEnv) (text : String) :
    Except String (List RuleSecurity) := do
  let s1 ← extractSharesGo env text "common_stock" stockPatterns
  let s2 ← extractSharesGo env text "preferred_stock" preferredPatterns
  let s3 ← extractWarrantGo env text warrantPatterns
  extractPriceGo env text (s1.toList ++ s2.toList ++ s3.toList) pricePatterns

/-- A rule-extracted closing condition: the dictionary built by
`_extract_closing_conditions` (lines 624-670). -/
structure RuleCondition where
  conditionDescription : String
  isWaivable : Bool
  responsibleParty : String
deriving DecidableEq

/-- The three closing-condition patterns (lines 628-632). -/
def conditionPatterns : List String :=
  ["(?:conditions? precedent|closing conditions?).*?(?:includes?|are):?\\s*([^.]*)",
   "(?:subject to|contingent upon).*?([^.]*)",
   "the closing.*?(?:subject to|contingent upon).*?([^.]*)"]

/-- The separator pattern handed to `re.split` (line 640). -/
def conditionSplitPattern : String :=
  "[;,]\\s*(?:\\([a-z]\\)|[0-9]+\\.)"

/-- Model of `SecuritiesContractExtractor._identify_responsible_party`
(lines 672-683). -/
def identifyResponsibleParty (conditionText : String) : String :=
  let textLower := pyLower conditionText
  if anyTermIn textLower ["company", "issuer", "seller"] then "company"
  else if anyTermIn textLower ["purchaser", "investor", "buyer"] then "investor"
  else if anyTermIn textLower ["sec", "regulatory", "government", "court"] then "third_party"
  else "mutual"

/-- The item loop (lines 642-649): keep stripped fragments of length
strictly between 10 and 200. -/
def conditionsFromItems (items : List String) : List RuleCondition :=
  items.foldl (fun acc item0 =>
    let item := pyStrip item0
    if pyLen item > 10 ∧ pyLen item < 200 then
      acc ++ [⟨item, containsStr (pyLower item) "waivable", identifyResponsibleParty item⟩]
    else acc) []

/-- One `finditer` match of a condition pattern (lines 636-649): group 1 is
stripped (ungarded access), split on the separator pattern, and the
surviving items become conditions. -/
def processConditionMatch (env : ReEnv) (acc : List RuleCondition) (m : ReMatch) :
    Except String (List RuleCondition) := do
  let g1 ← getGroup m 1
  let conditionText := pyStrip g1
  .ok (acc ++ conditionsFromItems (env.splitOn conditionSplitPattern conditionText))

/-- Model of `for match in matches:` for one condition pattern. -/
def forConditionMatches (env : ReEnv) : List ReMatch → List RuleCondition →
    Except String (List RuleCondition)
  | [], acc => .ok acc
  | m :: ms, acc => do
    let acc' ← processConditionMatch env acc m
    forConditionMatches env ms acc'

/-- The condition pattern loop (lines 634-649) over `text[:8000]`. -/
def extractClosingConditionsGo (env : ReEnv) (text : String) :
    List String → List RuleCondition → Except String (List RuleCondition)
  | [], acc => .ok acc
  | p :: rest, acc => do
    let acc' ← forConditionMatches env (env.finditer p (pyTake 8000 text)) acc
    extractClosingConditionsGo env text rest acc'

/-- The catalog of known condition keywords (lines 652-660). -/
def specificConditions : List (String × String) :=
  [("due diligence", "completion of due diligence"),
   ("board approval", "board of directors approval"),
   ("shareholder approval", "shareholder approval"),
   ("regulatory approval", "regulatory approval"),
   ("sec approval", "SEC approval"),
   ("legal opinion", "delivery of legal opinion"),
   ("audit", "completion of audit")]

/-- The keyword loop (lines 662-668): a keyword occurring anywhere in the
lowercased text appends its canned condition. -/
def addSpecificConditions (text : String) (conds : List RuleCondition) :
    List RuleCondition :=
  specificConditions.foldl (fun acc kd =>
    if containsStr (pyLower text) kd.1 then
      acc ++ [⟨kd.2, false,
        if kd.1 = "board approval" ∨ kd.1 = "audit" then "company" else "third_party"⟩]
    else acc) conds

/-- Model of `SecuritiesContractExtractor._extract_closing_conditions`
(lines 624-670); the result is capped at 10 items (`conditions[:10]`). -/
def extractClosingConditions (env : ReEnv) (text : String) :
    Except String (List RuleCondition) := do
  let conds ← extractClosingConditionsGo env text conditionPatterns []
  .ok ((addSpecificConditions text conds).take 10)

/-- The partial record `rule_data` returned by `_extract_with_rules`:
a key is present (`some`) exactly when the Python dictionary holds it. -/
structure RuleData where
  executionDate : Option PyDate := none
  totalOfferingAmount : Option Rat := none
  parties : Option (List Party) := none
  securities : Option (List RuleSecurity) := none
  closingConditions : Option (List RuleCondition) := none
deriving DecidableEq

/-- Model of `SecuritiesContractExtractor._extract_with_rules` (lines 375-522):
date, amount, parties, securities and closing conditions in that order;
the list-valued keys are only set when non-empty (lines 509-510, 513-515,
518-520). -/
def extractWithRules (env : ReEnv) (text : String) : Except String RuleData := do
  let executionDate := extractExecutionDate env text
  let amount ← extractAmountGo env text amountPatterns
  let parties ← extractParties env text
  let securitiesInfo ← extractSecuritiesInfo env text
  let conditions ← extractClosingConditions env text
  .ok ⟨executionDate, amount,
    if parties.isEmpty then none else some parties,
    if securitiesInfo.isEmpty then none else some securitiesInfo,
    if conditions.isEmpty then none else some conditions⟩

/-- The all-failing oracle: no pattern ever matches, no parse ever
succeeds.  (Trivially well-formed; used to instantiate theorems.) -/
def emptyReEnv : ReEnv :=
  ⟨fun _ _ => none, fun _ _ => [], fun _ _ => [], fun _ _ => none,
   fun _ => none, fun _ => none⟩

/-! ## Extraction merger
(`SecuritiesContractExtractor._extract_securities_agreement`,
`src/backend/src/securities_extraction.py`, lines 130-177: the block that
back-fills the parsed generative record from `rule_based_data`) -/

/-- A `Security` pydantic model, projected to the fields the merger
constructs (enum encoded by its string value). -/
structure Security where
  securityType : String
  numberOfShares : Option Int := none
  purchasePricePerShare : Option Rat := none
  exercisePrice : Option Rat := none
deriving DecidableEq

/-- A `ClosingConditions` pydantic model (the merger never sets
`deadline`). -/
structure ClosingCondition where
  conditionDescription : String
  isWaivable : Bool
  responsibleParty : String
  deadline : Option PyDate := none
deriving DecidableEq

/-- The `SecuritiesContract` record produced by the generative parse,
projected to the fields the merge block touches plus its identity fields. -/
structure SecuritiesRec where
  title : String
  contractType : String
  summary : Option String
  executionDate : Option PyDate
  totalOfferingAmount : Option Rat
  parties : List Party
  securities : List Security
  closingConditions : List ClosingCondition
deriving DecidableEq

/-- The values of the `SecurityType` enum
(`securities_data_models.py`, lines 6-14). -/
def validSecurityTypes : List String :=
  ["common_stock", "preferred_stock", "warrant", "option", "convertible_note",
   "debt", "unit"]

/-- The merger's per-security conversion (lines 147-158):
`SecurityType(...)` raises `ValueError` on an unknown value and the entry
is skipped (`except ValueError: continue`). -/
def convertRuleSecurity (rs : RuleSecurity) : Option Security :=
  if validSecurityTypes.contains rs.securityType then
    some ⟨rs.securityType, rs.numberOfShares, rs.purchasePricePerShare, rs.exercisePrice⟩
  else none

/-- The merger's per-condition conversion (lines 164-170). -/
def convertRuleCondition (rc : RuleCondition) : ClosingCondition :=
  ⟨rc.conditionDescription, rc.isWaivable, rc.responsibleParty, none⟩

/-- Python truthiness of an optional float: `None` and `0.0` are falsy. -/
def pyTruthyRat : Option Rat → Bool
  | none => false
  | some x => decide (x ≠ 0)

/-- Python truthiness of an optional list value: absent and `[]` are
falsy. -/
def pyTruthyListOpt (o : Option (List α)) : Bool :=
  match o with
  | none => false
  | some l => !l.isEmpty

/-- Line 135-136: `if not result.execution_date and
rule_based_data.get('execution_date'): result.execution_date = ...`. -/
def mergeExecutionDateStep (r : SecuritiesRec) (rd : RuleData) : SecuritiesRec :=
  if r.executionDate.isNone && rd.executionDate.isSome then
    {r with executionDate := rd.executionDate}
  else r

/-- Lines 138-139: the total-offering-amount back-fill. -/
def mergeAmountStep (r : SecuritiesRec) (rd : RuleData) : SecuritiesRec :=
  if !pyTruthyRat r.totalOfferingAmount && pyTruthyRat rd.totalOfferingAmount then
    {r with totalOfferingAmount := rd.totalOfferingAmount}
  else r

/-- Lines 141-142: the parties back-fill. -/
def mergePartiesStep (r : SecuritiesRec) (rd : RuleData) : SecuritiesRec :=
  if r.parties.isEmpty && pyTruthyListOpt rd.parties then
    {r with parties := rd.parties.getD []}
  else r

/-- Lines 144-159: the securities back-fill, with per-entry enum
conversion skipping invalid types. -/
def mergeSecuritiesStep (r : SecuritiesRec) (rd : RuleData) : SecuritiesRec :=
  if r.securities.isEmpty && pyTruthyListOpt rd.securities then
    {r with securities := (rd.securities.getD []).filterMap convertRuleSecurity}
  else r

/-- Lines 161-171: the closing-conditions back-fill. -/
def mergeConditionsStep (r : SecuritiesRec) (rd : RuleData) : SecuritiesRec :=
  if r.closingConditions.isEmpty && pyTruthyListOpt rd.closingConditions then
    {r with closingConditions := (rd.closingConditions.getD []).map convertRuleCondition}
  else r

/-- The field-level merge block (lines 134-171): the five back-fill
statements in source order. -/
def mergeRuleData (result : SecuritiesRec) (ruleData : RuleData) : SecuritiesRec :=
  mergeConditionsStep
    (mergeSecuritiesStep
      (mergePartiesStep
        (mergeAmountStep
          (mergeExecutionDateStep result ruleData) ruleData) ruleData) ruleData)
    ruleData

/-- A generative record whose total offering amount is the populated float
`0.0` (schema-valid output of the generative collaborator). -/
def genRecordZeroAmount : SecuritiesRec :=
  ⟨"T", "Securities Purchase Agreement", some "s", none, some 0, [], [], []⟩

/-- A rule-based partial record carrying total offering amount `5.0`. -/
def ruleRecordFive : RuleData :=
  ⟨none, some 5, none, none, none⟩

/-! ## Graph store adapter (`import_securities_contract_to_neo4j`,
`src/backend/src/securities_extraction.py`, lines 928-1121)

The Neo4j driver is an external collaborator.  At the granularity of the
claims the store is the set of primary `SecuritiesContract` node titles
(both the full upsert and the minimal fallback `MERGE` on
`\x7btitle: $title\x7d`); each of the two `session.run` calls is a
fallible oracle (`Except.error` = the driver raised on that call). -/

/-- Model of `MERGE (c:SecuritiesContract \x7btitle: $title\x7d)`: create the node
unless one with this natural key exists. -/
def mergeTitle (g : List String) (title : String) : List String :=
  if title ∈ g then g else g ++ [title]

/-- A graph write issued by the adapter, as observable effects: either the
full upsert payload, or the minimal fallback write, which carries only the
record's title, contract type and summary (lines 1112-1121). -/
inductive WriteOp where
  | full (c : SecuritiesRec)
  | minimal (title : String) (contractType : String) (summary : Option String)
deriving DecidableEq

/-- Model of `import_securities_contract_to_neo4j` (lines 1086-1121):
`session.run` of the full query inside `try`; on any exception the
`except` block discards the caught failure (it is never re-raised) and
issues the minimal `session.run` instead.  That second run is NOT inside
any `try`: when it raises, the exception propagates (`Except.error`) and
the transaction leaves no node behind.  On a normal return the result is
the new set of primary node titles and the write issued. -/
def importSecuritiesContractToNeo4j (fullWrite minimalWrite : Except String Unit)
    (c : SecuritiesRec) (g : List String) :
    Except String (List String × List WriteOp) :=
  match fullWrite with
  | .ok _ => .ok (mergeTitle g c.title, [WriteOp.full c])
  | .error _ =>
    match minimalWrite with
    | .ok _ =>
      .ok (mergeTitle g c.title, [WriteOp.minimal c.title c.contractType c.summary])
    | .error e2 => .error e2

/-! ## Securities ingest (`SecuritiesGraphRAGPipeline.ingest_contract`,
`src/src/securities_pipeline_runner.py`, lines 61-77) -/

/-- Lines 71-72: a truthy `contract_id` rewrites the extracted title to
`f"\x7bcontract_data.title\x7d (\x7bcontract_id\x7d)"` before persistence
(`None` and the empty string are falsy and leave the title unchanged). -/
def rewriteTitle (title : String) (contractId : Option String) : String :=
  match contractId with
  | none => title
  | some cid => if cid = "" then title else title ++ " (" ++ cid ++ ")"

/-- The primary-node effect of `ingest_contract`: rewrite the title, then
`import_securities_contract_to_neo4j`, whose full and fallback paths both
`MERGE` the primary contract node on the (rewritten) title. -/
def ingestContractTitles (extractedTitle : String) (contractId : Option String)
    (g : List String) : List String :=
  mergeTitle g (rewriteTitle extractedTitle contractId)

/-! ## Batch orchestrator (`EnhancedBatchProcessor`,
`src/backend/src/batch_ingest_contracts.py`, lines 226-508)

Per-file processing is a state transition on the processor's mutable state
(processed list, failed list, cache index).  The external side effects a
step performs are recorded as an explicit effect trace; text extraction
and the `ingest_contract` pipeline call (which comprises the
generative-model call and the graph-store write) are the oracle parts of a
`FileJob`. -/

/-- Observable external actions of one processing step. -/
inductive BatchEffect where
  | textExtract
  | ingest
  | cacheSave
deriving DecidableEq

/-- One element of `self.processed_files` (lines 243-250 and 316-323). -/
structure ProcessedEntry where
  filePath : String
  contractId : String
  title : String
  contractType : String
  metadata : String
  fromCache : Bool
deriving DecidableEq

/-- One element of `self.failed_files` (lines 333-337). -/
structure FailedEntry where
  filePath : String
  error : String
  metadata : String
deriving DecidableEq

/-- The processor state threaded through the batch loop. -/
structure BatchState where
  processedFiles : List ProcessedEntry
  failedFiles : List FailedEntry
  cache : CacheIndex
deriving DecidableEq

/-- The fields of the pipeline's returned contract record that
`cache_contract_data` and the success bookkeeping read. -/
structure ContractResult where
  title : String
  contractType : String
  summary : String
  executionDate : String
  totalOfferingAmount : Option Rat
  partiesCount : Nat
  securitiesCount : Nat
  conditionsCount : Nat
deriving DecidableEq

/-- One file of a batch together with the outcomes of its external calls:
the extracted text (`""` on a read failure), the path-derived metadata and
contract id, the current mtime, and the pipeline `ingest_contract` oracle,
applied to the (truncated) text it is handed. -/
structure FileJob where
  path : String
  fileType : String
  mtime : Rat
  text : String
  metadata : String
  contractId : String
  nowStr : String
  ingest : String → Except String ContractResult

/-- Model of `self.processed_data_cache[file_path] = \x7b...\x7d`: dictionary
assignment (overwrite or append). -/
def cacheInsert (cache : CacheIndex) (k : String) (v : CacheEntry) : CacheIndex :=
  if (List.lookup k cache).isSome then
    cache.map (fun kv => if kv.1 = k then (k, v) else kv)
  else cache ++ [(k, v)]

/-- Model of `EnhancedBatchProcessor.cache_contract_data` (lines 157-172): the entry
stored for a freshly processed file, stamped with the file's mtime. -/
def cacheEntryOf (data : ContractResult) (metadata : String) (nowStr : String)
    (mtime : Rat) : CacheEntry :=
  ⟨data.title, data.title, data.contractType, data.summary, data.executionDate,
   data.totalOfferingAmount, data.partiesCount, data.securitiesCount,
   data.conditionsCount, metadata, nowStr, some mtime⟩

/-- Model of `EnhancedBatchProcessor.process_single_contract` (lines 226-338).
Returns the new state, the boolean result, and the effect trace.
* Cache hit with force-reprocess off (lines 235-251): append a
  `from_cache=True` entry and return `True`; no external call happens.
* Length check (lines 269-271): short text returns `False` with no record
  appended anywhere.
* Pipeline failure (lines 331-338): append to `failed_files`, `False`.
* Success (lines 301-329): cache the data, append a `from_cache=False`
  entry, flush the cache every 5 processed files, `True`. -/
def processSingleContract (forceReprocess : Bool) (st : BatchState)
    (job : FileJob) : BatchState × Bool × List BatchEffect :=
  if !forceReprocess && isContractCached st.cache job.path job.mtime then
    let entry : ProcessedEntry :=
      match cacheLookup st.cache job.path with
      | some c => ⟨job.path, c.contractId, c.title, c.contractType, c.metadata, true⟩
      | none => ⟨job.path, "Unknown", "Unknown", "Unknown", "", true⟩
    ({st with processedFiles := st.processedFiles ++ [entry]}, true, [])
  else
    if job.text = "" ∨ pyLen (pyStrip job.text) < 100 then
      (st, false, [BatchEffect.textExtract])
    else
      match job.ingest (truncateContractText job.text) with
      | .error e =>
        ({st with failedFiles := st.failedFiles ++ [⟨job.path, e, job.metadata⟩]},
         false, [BatchEffect.textExtract, BatchEffect.ingest])
      | .ok data =>
        let processed' := st.processedFiles ++
          [⟨job.path, job.contractId, data.title, data.contractType, job.metadata, false⟩]
        (⟨processed', st.failedFiles,
           cacheInsert st.cache job.path
             (cacheEntryOf data job.metadata job.nowStr job.mtime)⟩,
         true,
         if processed'.length % 5 = 0 then
           [BatchEffect.textExtract, BatchEffect.ingest, BatchEffect.cacheSave]
         else
           [BatchEffect.textExtract, BatchEffect.ingest])

/-- The processing loop of `run_batch_processing` (lines 404-406):
`successful_count` increments exactly when a step returns `True`. -/
def runBatchGo (forceReprocess : Bool) :
    List FileJob → BatchState → Nat → BatchState × Nat
  | [], st, n => (st, n)
  | job :: rest, st, n =>
    runBatchGo forceReprocess rest (processSingleContract forceReprocess st job).1
      (if (processSingleContract forceReprocess st job).2.1 then n + 1 else n)

/-- Run a batch from a starting state. -/
def runBatch (forceReprocess : Bool) (st : BatchState) (jobs : List FileJob) :
    BatchState × Nat :=
  runBatchGo forceReprocess jobs st 0

/-- The final report (`_generate_final_report`, lines 438-508), restricted
to its count and file-list fields (timing and the store statistics are
external measurements outside the embedding). -/
structure BatchReport where
  totalFilesFound : Nat
  successfullyProcessed : Nat
  failedFilesCount : Nat
  processedFiles : List ProcessedEntry
  failedFilesPreview : List FailedEntry
deriving DecidableEq

/-- Lines 472-484: counts, the processed list, and the first-5 failure
preview. -/
def generateFinalReport (st : BatchState) (totalFiles successfulCount : Nat) :
    BatchReport :=
  ⟨totalFiles, successfulCount, st.failedFiles.length, st.processedFiles,
   st.failedFiles.take 5⟩

/-- A file whose extracted text fails the 100-character minimum. -/
def shortTextJob (p : String) : FileJob :=
  ⟨p, "txt", 1, "too short", "meta", "cid-" ++ p, "now",
   fun _ => .ok ⟨"T " ++ p, "Securities Purchase Agreement", "sum", "", none, 0, 0, 0⟩⟩

/-- A file whose extracted text passes the minimum and whose pipeline call
succeeds. -/
def okTextJob (p : String) : FileJob :=
  ⟨p, "txt", 1, ⟨List.replicate 120 'a'⟩, "meta", "cid-" ++ p, "now",
   fun _ => .ok ⟨"T " ++ p, "Securities Purchase Agreement", "sum", "", none, 0, 0, 0⟩⟩

/-- A 10-file batch in which 3 files fail the minimum-length check. -/
def exampleBatchJobs : List FileJob :=
  [okTextJob "f1", okTextJob "f2", shortTextJob "s1", okTextJob "f3",
   shortTextJob "s2", okTextJob "f4", okTextJob "f5", shortTextJob "s3",
   okTextJob "f6", okTextJob "f7"]

/-! ## NL query surface (`LicenseGraphRAGPipeline`,
`src/remote/license_pipeline_runner.py`, lines 141-436)

The Llama text-generation calls and the Neo4j session are oracles.  The
`llmGen` oracle yields the generated continuation after the prompt prefix
is sliced off (`generated_text[len(prompt):]`), `.error` modelling a
raised exception; `db` maps a Cypher query string to its record list or a
raised execution error. -/

/-- A `collect(DISTINCT ...)` element for licensors/licensees: a map whose
values are node properties (all `null` when the `OPTIONAL MATCH` found
nothing). -/
structure LEntity where
  name : Option String
  address : Option String
  entityType : Option String
  jurisdiction : Option String
deriving DecidableEq

/-- A collected patent element. -/
structure LPatent where
  patentNumber : Option String
  patentTitle : Option String
deriving DecidableEq

/-- A collected product element. -/
structure LProduct where
  productName : Option String
  description : Option String
deriving DecidableEq

/-- A collected territory element. -/
structure LTerritory where
  territoryName : Option String
  territoryType : Option String
deriving DecidableEq

/-- One row of the contract query result, with its nested per-relation
collections. -/
structure LicenseRecord where
  title : Option String
  contractType : Option String
  summary : Option String
  executionDate : Option String
  effectiveDate : Option String
  upfrontPayment : Option Rat
  exclusivityGrantType : Option String
  oemType : Option String
  licensedFieldOfUse : Option String
  governingLaw : Option String
  jurisdiction : Option String
  licensors : List LEntity
  licensees : List LEntity
  patents : List LPatent
  products : List LProduct
  territories : List LTerritory
deriving DecidableEq

/-- Python truthiness of an optional string: `None` and `""` are falsy. -/
def pyTruthyStrOpt : Option String → Bool
  | none => false
  | some s => s != ""

/-- Model of `str(record['x']) if record.get('x') else None` for a string-typed
field (dates arrive as strings from the driver model). -/
def strIfTruthy (o : Option String) : Option String :=
  if pyTruthyStrOpt o then o else none

/-- The record post-processing of `_get_relevant_contracts`
(lines 201-220): stringify truthy dates and drop placeholder collection
entries whose natural-key field is falsy. -/
def postprocessMainRecord (r : LicenseRecord) : LicenseRecord :=
  { r with
    executionDate := strIfTruthy r.executionDate
    effectiveDate := strIfTruthy r.effectiveDate
    licensors := r.licensors.filter (fun l => pyTruthyStrOpt l.name)
    licensees := r.licensees.filter (fun l => pyTruthyStrOpt l.name)
    patents := r.patents.filter (fun p => pyTruthyStrOpt p.patentNumber)
    products := r.products.filter (fun p => pyTruthyStrOpt p.productName)
    territories := r.territories.filter (fun t => pyTruthyStrOpt t.territoryName) }

/-- The record post-processing of `_get_fallback_contracts`
(lines 445-464): the same projection and placeholder filtering. -/
def postprocessFallbackRecord (r : LicenseRecord) : LicenseRecord :=
  { r with
    executionDate := strIfTruthy r.executionDate
    effectiveDate := strIfTruthy r.effectiveDate
    licensors := r.licensors.filter (fun l => pyTruthyStrOpt l.name)
    licensees := r.licensees.filter (fun l => pyTruthyStrOpt l.name)
    patents := r.patents.filter (fun p => pyTruthyStrOpt p.patentNumber)
    products := r.products.filter (fun p => pyTruthyStrOpt p.productName)
    territories := r.territories.filter (fun t => pyTruthyStrOpt t.territoryName) }

/-- The raw triple-quoted canonical field-projection clause spliced in by
`_fix_return_clause` (lines 356-376), before its `.strip()`. -/
def canonicalReturnClauseRaw : String :=
  "\n        RETURN\n" ++
  "            lc.title AS title,\n" ++
  "            lc.contract_type AS contract_type,\n" ++
  "            lc.summary AS summary,\n" ++
  "            lc.execution_date AS execution_date,\n" ++
  "            lc.effective_date AS effective_date,\n" ++
  "            lc.upfront_payment AS upfront_payment,\n" ++
  "            lc.exclusivity_grant_type AS exclusivity_grant_type,\n" ++
  "            lc.oem_type AS oem_type,\n" ++
  "            lc.licensed_field_of_use AS licensed_field_of_use,\n" ++
  "            lc.governing_law AS governing_law,\n" ++
  "            lc.jurisdiction AS jurisdiction,\n" ++
  "            collect(DISTINCT \x7bname: licensor.name, address: licensor.address, entity_type: licensor.entity_type, jurisdiction: licensor.jurisdiction\x7d) AS licensors,\n" ++
  "            collect(DISTINCT \x7bname: licensee.name, address: licensee.address, entity_type: licensee.entity_type, jurisdiction: licensee.jurisdiction\x7d) AS licensees,\n" ++
  "            collect(DISTINCT \x7bpatent_number: patent.patent_number, patent_title: patent.patent_title\x7d) AS patents,\n" ++
  "            collect(DISTINCT \x7bproduct_name: product.product_name, description: product.description\x7d) AS products,\n" ++
  "            collect(DISTINCT \x7bterritory_name: territory.territory_name, territory_type: territory.territory_type\x7d) AS territories\n" ++
  "        ORDER BY lc.execution_date DESC\n" ++
  "        LIMIT 10\n" ++
  "            "

/-- Model of `LicenseGraphRAGPipeline._get_fallback_cypher_query` (lines 382-436):
the hardcoded canonical fallback query (an f-string; `\x7b\x7b` renders as
a literal brace and `\x7blimit\x7d` interpolates the row cap). -/
def fallbackCypherQuery (limit : Nat) : String :=
  "\n        MATCH (c:LicenseContract)\n" ++
  "        OPTIONAL MATCH (l:Licensor)-[:IS_LICENSOR_OF]->(c)\n" ++
  "        OPTIONAL MATCH (le:Licensee)-[:IS_LICENSEE_OF]->(c)\n" ++
  "        OPTIONAL MATCH (c)-[:LICENSES]->(p:Patent)\n" ++
  "        OPTIONAL MATCH (c)-[:LICENSES]->(pr:Product)\n" ++
  "        OPTIONAL MATCH (c)-[:COVERS_TERRITORY]->(t:Territory)\n" ++
  "        \n" ++
  "        WITH c,\n" ++
  "             collect(DISTINCT \x7b\n" ++
  "                 name: l.name, \n" ++
  "                 address: l.address,\n" ++
  "                 entity_type: l.entity_type,\n" ++
  "                 jurisdiction: l.jurisdiction\n" ++
  "             \x7d) as licensors,\n" ++
  "             collect(DISTINCT \x7b\n" ++
  "                 name: le.name,\n" ++
  "                 address: le.address,\n" ++
  "                 entity_type: le.entity_type,\n" ++
  "                 jurisdiction: le.jurisdiction\n" ++
  "             \x7d) as licensees,\n" ++
  "             collect(DISTINCT \x7b\n" ++
  "                 patent_number: p.patent_number,\n" ++
  "                 patent_title: p.patent_title\n" ++
  "             \x7d) as patents,\n" ++
  "             collect(DISTINCT \x7b\n" ++
  "                 product_name: pr.product_name,\n" ++
  "                 description: pr.description\n" ++
  "             \x7d) as products,\n" ++
  "             collect(DISTINCT \x7b\n" ++
  "                 territory_name: t.territory_name,\n" ++
  "                 territory_type: t.territory_type\n" ++
  "             \x7d) as territories\n" ++
  "        \n" ++
  "        RETURN c.title as title,\n" ++
  "               c.contract_type as contract_type,\n" ++
  "               c.summary as summary,\n" ++
  "               c.execution_date as execution_date,\n" ++
  "               c.effective_date as effective_date,\n" ++
  "               c.upfront_payment as upfront_payment,\n" ++
  "               c.exclusivity_grant_type as exclusivity_grant_type,\n" ++
  "               c.oem_type as oem_type,\n" ++
  "               c.licensed_field_of_use as licensed_field_of_use,\n" ++
  "               c.governing_law as governing_law,\n" ++
  "               c.jurisdiction as jurisdiction,\n" ++
  "               licensors,\n" ++
  "               licensees,\n" ++
  "               patents,\n" ++
  "               products,\n" ++
  "               territories\n" ++
  "        ORDER BY c.execution_date DESC\n" ++
  "        LIMIT " ++ toString limit ++ "\n" ++
  "        "

/-- The markdown-fence cleanup of `_generate_cypher_query`
(lines 294-309): strip, remove a leading fenced block, then cut to the
content between the outermost remaining fences. -/
def cleanMarkdownFences (generated : String) : String :=
  let cypherQuery := pyStrip generated
  let cypherQuery :=
    if startsWithStr cypherQuery "```" then
      let lines := splitLines cypherQuery
      if lines.length > 2 then pyStrip (joinLines ((lines.drop 1).dropLast))
      else cypherQuery
    else cypherQuery
  if containsStr cypherQuery "```" then
    let start := (findStr cypherQuery "```").getD 0 + 3
    let stop := (rfindStr cypherQuery "```").getD 0
    if stop > start then pyStrip (pySlice cypherQuery start stop) else cypherQuery
  else cypherQuery

/-- The anchor repair of `_generate_cypher_query` (lines 311-318): if the
uppercased query does not start with `MATCH`, trim to its first
occurrence; with no occurrence anywhere, raise `ValueError`. -/
def anchorAtMatch (cypherQuery : String) : Except String String :=
  if startsWithStr (pyUpper cypherQuery) "MATCH" then .ok cypherQuery
  else
    match findStr (pyUpper cypherQuery) "MATCH" with
    | some i => .ok (pyDrop i cypherQuery)
    | none => .error "No MATCH clause found in generated query"

/-- The keyword validation of `_generate_cypher_query` (lines 320-322). -/
def validateCypherKeywords (cypherQuery : String) : Except String String :=
  if containsStr (pyUpper cypherQuery) "MATCH" ||
      containsStr (pyUpper cypherQuery) "RETURN" then
    .ok cypherQuery
  else .error "Generated query missing required Cypher keywords"

/-- The whole-node-projection detectors of `_fix_return_clause`
(line 339). -/
def wholeNodePatterns : List String :=
  ["RETURN LC,", "RETURN LICENSOR,", "RETURN LICENSEE,", "RETURN LC ",
   "RETURN LICENSOR ", "RETURN LICENSEE "]

/-- The line scan of `_fix_return_clause` (lines 343-353): keep stripped
`MATCH`/`OPTIONAL MATCH`/`WITH` lines, stop at the first `RETURN` line. -/
def collectMatchLines : List String → List String
  | [] => []
  | l :: rest =>
    let line := pyStrip l
    if startsWithStr (pyUpper line) "MATCH" ||
        startsWithStr (pyUpper line) "OPTIONAL MATCH" ||
        startsWithStr (pyUpper line) "WITH" then
      line :: collectMatchLines rest
    else if startsWithStr (pyUpper line) "RETURN" then []
    else collectMatchLines rest

/-- Model of `LicenseGraphRAGPipeline._fix_return_clause` (lines 335-380): when a
whole-node projection is detected, discard the generated projection and
splice the canonical field projection over the kept match lines. -/
def fixReturnClause (cypherQuery : String) : String :=
  if wholeNodePatterns.any (fun p => containsStr (pyUpper cypherQuery) p) then
    joinLines (collectMatchLines (splitLines cypherQuery)) ++ "\n" ++
      pyStrip canonicalReturnClauseRaw
  else cypherQuery

/-- Model of `LicenseGraphRAGPipeline._generate_cypher_query` (lines 230-333):
generation, markdown cleanup, anchor repair, keyword validation and
return-clause repair; every exception inside the `try` (an LLM failure or
either `ValueError`) is caught and answered with the hardcoded fallback
query. -/
def generateCypherQuery (llmGen : Except String String) (limit : Nat) : String :=
  match llmGen with
  | .error _ => fallbackCypherQuery limit
  | .ok generated =>
    match anchorAtMatch (cleanMarkdownFences generated) with
    | .error _ => fallbackCypherQuery limit
    | .ok anchored =>
      match validateCypherKeywords anchored with
      | .error _ => fallbackCypherQuery limit
      | .ok validated => fixReturnClause validated

/-- Model of `LicenseGraphRAGPipeline._get_fallback_contracts` (lines 438-466):
run the fallback query and post-process; an execution error here is NOT
caught and propagates to the caller. -/
def getFallbackContracts (db : String → Except String (List LicenseRecord))
    (limit : Nat) : Except String (List LicenseRecord) :=
  (db (fallbackCypherQuery limit)).map (List.map postprocessFallbackRecord)

/-- Model of `LicenseGraphRAGPipeline._get_relevant_contracts` (lines 188-228):
generate a query, execute it and post-process; on any exception in the
`try` block (query execution raising) fall back to
`_get_fallback_contracts`. -/
def getRelevantContracts (db : String → Except String (List LicenseRecord))
    (llmGen : Except String String) (limit : Nat) :
    Except String (List LicenseRecord) :=
  match db (generateCypherQuery llmGen limit) with
  | .ok records => .ok (records.map postprocessMainRecord)
  | .error _ => getFallbackContracts db limit

/-- Model of `LicenseGraphRAGPipeline.query_contracts` (lines 141-186): the natural
language query surface.  Every branch returns a string: retrieval failures
are caught by the outer `except` and LLM answer failures by the inner one.
The `Except`-valued oracles are matched exhaustively, so no exception
value can escape — the Lean result type `String` is the propagation-freeness
of the source. -/
def queryContracts (db : String → Except String (List LicenseRecord))
    (llmGen : Except String String) (llmAnswer : Except String String)
    (_userQuestion : String) : String :=
  match getRelevantContracts db llmGen 10 with
  | .error e =>
    "Error processing query: " ++ e ++
      ". Please try a simpler question or check the database connection."
  | .ok contractData =>
    if contractData.isEmpty then
      "No relevant license contracts found in the knowledge graph."
    else
      match llmAnswer with
      | .error e => "Error generating LLM response: " ++ e
      | .ok generatedText =>
        let responseContent := pyStrip generatedText
        if responseContent = "" then "Sorry, I couldn\x27t generate a response."
        else responseContent

end ContRAG

namespace ContRAG

/-! # Theorems -/

/-- Claim C5. For every contract text, the contract-type classifier tests
keyword groups over the lowercased text in the fixed order license →
employment/letter → settlement → lease → securities-purchase → warrant →
rights, returns the type of the first group with any keyword present, and
returns the default generic type when no group matches; hence a text
containing both a license keyword and a securities-purchase keyword is
always classified as a license agreement. -/
theorem claim5_detect_contract_type_ordered_scan :
    (∀ t : String, detectContractType t = scanKeywordGroups t) ∧
    (∀ t : String,
      anyTermIn (pyLower t) ["license agreement", "licensing", "intellectual property"] = true →
      detectContractType t = "License Agreement") := by
  constructor
  · intro t
    rfl
  · intro t h
    simp [detectContractType, h]

/-- Witness for C5: a text holding both a license keyword and a
securities-purchase keyword is classified as a license agreement. -/
theorem claim5_witness :
    detectContractType "This License Agreement concerns a Securities Purchase"
      = "License Agreement" :=
  claim5_detect_contract_type_ordered_scan.2
    "This License Agreement concerns a Securities Purchase" (by decide)

/-- Claim C3. For every file path whose file exists, the cache lookup reports
a hit iff an entry for the path exists in the cache index and the file's
current modification time is ≤ the modification time stored in that entry
(`.get('mtime', 0)`); any later modification (current mtime exceeding the
stored one) makes the lookup a miss. -/
theorem claim3_cache_hit_iff_mtime_le :
    (∀ (cache : CacheIndex) (path : String) (fileMtime : Rat),
      isContractCached cache path fileMtime = true ↔
        ∃ e, cacheLookup cache path = some e ∧ fileMtime ≤ e.mtime.getD 0) ∧
    (∀ (cache : CacheIndex) (path : String) (fileMtime : Rat) (e : CacheEntry),
      cacheLookup cache path = some e → e.mtime.getD 0 < fileMtime →
      isContractCached cache path fileMtime = false) := by
  constructor
  · intro cache path fileMtime
    unfold isContractCached
    cases h : cacheLookup cache path with
    | none => simp [h]
    | some e => simp [h]
  · intro cache path fileMtime e h hlt
    unfold isContractCached
    rw [h]
    simp [not_le.mpr hlt]

/-- Witness for C3: with a single stored entry of mtime 100, lookup at file
mtime 100 hits and lookup at file mtime 101 misses. -/
theorem claim3_witness :
    (isContractCached
        [("a.txt", ⟨"c", "t", "ty", "s", "d", none, 0, 0, 0, "m", "p", some 100⟩)]
        "a.txt" 100 = true) ∧
    (isContractCached
        [("a.txt", ⟨"c", "t", "ty", "s", "d", none, 0, 0, 0, "m", "p", some 100⟩)]
        "a.txt" 101 = false) := by
  constructor
  · exact (claim3_cache_hit_iff_mtime_le.1 _ "a.txt" 100).mpr
      ⟨⟨"c", "t", "ty", "s", "d", none, 0, 0, 0, "m", "p", some 100⟩, by decide, by norm_num⟩
  · exact claim3_cache_hit_iff_mtime_le.2 _ "a.txt" 101
      ⟨"c", "t", "ty", "s", "d", none, 0, 0, 0, "m", "p", some 100⟩
      (by decide) (by norm_num)

/-- Claim C4. For every extracted contract text longer than the 20000-character
threshold (in particular any 25000-character input), the text passed on to
the generative extraction step equals the first 15000 characters of the
original, followed by exactly one elision marker, followed by the last
5000 characters of the original; text at or below the threshold is passed
through unchanged. -/
theorem claim4_truncation_head_marker_tail :
    (∀ s : String, s.data.length > 20000 →
      (truncateContractText s).data
        = s.data.take 15000 ++ truncationMarker.data
            ++ s.data.drop (s.data.length - 5000)) ∧
    (∀ s : String, s.data.length ≤ 20000 → truncateContractText s = s) ∧
    (∀ s : String, s.data.length = 25000 →
      (truncateContractText s).data
        = s.data.take 15000 ++ truncationMarker.data ++ s.data.drop 20000) := by
  refine ⟨?_, ?_, ?_⟩
  · intro s h
    unfold truncateContractText
    rw [if_pos h]
  · intro s h
    unfold truncateContractText
    rw [if_neg (by omega)]
  · intro s h
    unfold truncateContractText
    rw [if_pos (by omega), h]

/-- Witness for C4: on the 25000-character text `"a" * 25000` the truncated
text is `"a" * 15000 ++ marker ++ "a" * 5000`. -/
theorem claim4_witness :
    (truncateContractText ⟨List.replicate 25000 'a'⟩).data
      = List.replicate 15000 'a' ++ truncationMarker.data
          ++ List.replicate 5000 'a' := by
  have hlen : (String.mk (List.replicate 25000 'a')).data.length = 25000 := by
    rw [List.length_replicate]
  have h := claim4_truncation_head_marker_tail.2.2 ⟨List.replicate 25000 'a'⟩ hlen
  rw [h]
  rw [show (String.mk (List.replicate 25000 'a')).data = List.replicate 25000 'a' from rfl,
    List.take_replicate, List.drop_replicate]
  norm_num

/-- All five field projections of the execution-date merge step: it sets
only `executionDate`, by the source's truthiness test. -/
theorem mergeExecutionDateStep_proj (r : SecuritiesRec) (rd : RuleData) :
    ((mergeExecutionDateStep r rd).executionDate =
      if r.executionDate.isNone && rd.executionDate.isSome then rd.executionDate
      else r.executionDate) ∧
    (mergeExecutionDateStep r rd).totalOfferingAmount = r.totalOfferingAmount ∧
    (mergeExecutionDateStep r rd).parties = r.parties ∧
    (mergeExecutionDateStep r rd).securities = r.securities ∧
    (mergeExecutionDateStep r rd).closingConditions = r.closingConditions := by
  by_cases h : (r.executionDate.isNone && rd.executionDate.isSome) = true <;>
    simp [mergeExecutionDateStep, h]

/-- All five field projections of the amount merge step. -/
theorem mergeAmountStep_proj (r : SecuritiesRec) (rd : RuleData) :
    (mergeAmountStep r rd).executionDate = r.executionDate ∧
    ((mergeAmountStep r rd).totalOfferingAmount =
      if !pyTruthyRat r.totalOfferingAmount && pyTruthyRat rd.totalOfferingAmount then
        rd.totalOfferingAmount
      else r.totalOfferingAmount) ∧
    (mergeAmountStep r rd).parties = r.parties ∧
    (mergeAmountStep r rd).securities = r.securities ∧
    (mergeAmountStep r rd).closingConditions = r.closingConditions := by
  by_cases h : (!pyTruthyRat r.totalOfferingAmount &&
      pyTruthyRat rd.totalOfferingAmount) = true <;>
    simp [mergeAmountStep, h]

/-- All five field projections of the parties merge step. -/
theorem mergePartiesStep_proj (r : SecuritiesRec) (rd : RuleData) :
    (mergePartiesStep r rd).executionDate = r.executionDate ∧
    (mergePartiesStep r rd).totalOfferingAmount = r.totalOfferingAmount ∧
    ((mergePartiesStep r rd).parties =
      if r.parties.isEmpty && pyTruthyListOpt rd.parties then rd.parties.getD []
      else r.parties) ∧
    (mergePartiesStep r rd).securities = r.securities ∧
    (mergePartiesStep r rd).closingConditions = r.closingConditions := by
  by_cases h : (r.parties.isEmpty && pyTruthyListOpt rd.parties) = true <;>
    simp [mergePartiesStep, h]

/-- All five field projections of the securities merge step. -/
theorem mergeSecuritiesStep_proj (r : SecuritiesRec) (rd : RuleData) :
    (mergeSecuritiesStep r rd).executionDate = r.executionDate ∧
    (mergeSecuritiesStep r rd).totalOfferingAmount = r.totalOfferingAmount ∧
    (mergeSecuritiesStep r rd).parties = r.parties ∧
    ((mergeSecuritiesStep r rd).securities =
      if r.securities.isEmpty && pyTruthyListOpt rd.securities then
        (rd.securities.getD []).filterMap convertRuleSecurity
      else r.securities) ∧
    (mergeSecuritiesStep r rd).closingConditions = r.closingConditions := by
  by_cases h : (r.securities.isEmpty && pyTruthyListOpt rd.securities) = true <;>
    simp [mergeSecuritiesStep, h]

/-- All five field projections of the closing-conditions merge step. -/
theorem mergeConditionsStep_proj (r : SecuritiesRec) (rd : RuleData) :
    (mergeConditionsStep r rd).executionDate = r.executionDate ∧
    (mergeConditionsStep r rd).totalOfferingAmount = r.totalOfferingAmount ∧
    (mergeConditionsStep r rd).parties = r.parties ∧
    (mergeConditionsStep r rd).securities = r.securities ∧
    ((mergeConditionsStep r rd).closingConditions =
      if r.closingConditions.isEmpty && pyTruthyListOpt rd.closingConditions then
        (rd.closingConditions.getD []).map convertRuleCondition
      else r.closingConditions) := by
  by_cases h : (r.closingConditions.isEmpty && pyTruthyListOpt rd.closingConditions) = true <;>
    simp [mergeConditionsStep, h]

/-- Claim C1 counterexample. The claim states that a non-null generative
field is never overridden by a rule-based value.  The merge block tests
Python truthiness instead: at a generative record whose (populated) total
offering amount is the float `0.0` and a rule-based amount of `5.0`, the
merged record carries `5.0`, overriding the populated generative value. -/
theorem claim1_counterexample :
    genRecordZeroAmount.totalOfferingAmount = some 0 ∧
    ruleRecordFive.totalOfferingAmount = some 5 ∧
    (mergeRuleData genRecordZeroAmount ruleRecordFive).totalOfferingAmount = some 5 ∧
    (mergeRuleData genRecordZeroAmount ruleRecordFive).totalOfferingAmount
      ≠ genRecordZeroAmount.totalOfferingAmount :=
  ⟨rfl, rfl, by decide, by decide⟩

/-- Claim C1 amended. For every pair (generative record `g`, rule-based
record `r`) combined by the merger, and for each of the five optional
fields: the rule-based value fills the field exactly when the generative
value is *falsy* (null, `0.0`, or an empty list) and the rule-based value
is present and itself truthy; otherwise the generative value is kept
(rule-based securities/conditions are converted to model objects as they
fill).  In particular the specification's two examples hold: generative
amount null with rule-based `5` merges to `5`; generative `7` with
rule-based `5` merges to `7`. -/
theorem claim1_merge_fallback_by_truthiness :
    (∀ (g : SecuritiesRec) (r : RuleData),
      ((mergeRuleData g r).executionDate =
        if g.executionDate.isNone && r.executionDate.isSome then r.executionDate
        else g.executionDate) ∧
      ((mergeRuleData g r).totalOfferingAmount =
        if !pyTruthyRat g.totalOfferingAmount && pyTruthyRat r.totalOfferingAmount then
          r.totalOfferingAmount
        else g.totalOfferingAmount) ∧
      ((mergeRuleData g r).parties =
        if g.parties.isEmpty && pyTruthyListOpt r.parties then r.parties.getD []
        else g.parties) ∧
      ((mergeRuleData g r).securities =
        if g.securities.isEmpty && pyTruthyListOpt r.securities then
          (r.securities.getD []).filterMap convertRuleSecurity
        else g.securities) ∧
      ((mergeRuleData g r).closingConditions =
        if g.closingConditions.isEmpty && pyTruthyListOpt r.closingConditions then
          (r.closingConditions.getD []).map convertRuleCondition
        else g.closingConditions)) ∧
    (mergeRuleData ⟨"T", "SPA", none, none, none, [], [], []⟩
        ruleRecordFive).totalOfferingAmount = some 5 ∧
    (mergeRuleData ⟨"T", "SPA", none, none, some 7, [], [], []⟩
        ruleRecordFive).totalOfferingAmount = some 7 := by
  refine ⟨fun g r => ?_, by decide, by decide⟩
  unfold mergeRuleData
  refine ⟨?_, ?_, ?_, ?_, ?_⟩
  · rw [(mergeConditionsStep_proj _ r).1, (mergeSecuritiesStep_proj _ r).1,
      (mergePartiesStep_proj _ r).1, (mergeAmountStep_proj _ r).1,
      (mergeExecutionDateStep_proj g r).1]
  · rw [(mergeConditionsStep_proj _ r).2.1, (mergeSecuritiesStep_proj _ r).2.1,
      (mergePartiesStep_proj _ r).2.1, (mergeAmountStep_proj _ r).2.1,
      (mergeExecutionDateStep_proj g r).2.1]
  · rw [(mergeConditionsStep_proj _ r).2.2.1, (mergeSecuritiesStep_proj _ r).2.2.1,
      (mergePartiesStep_proj _ r).2.2.1, (mergeAmountStep_proj _ r).2.2.1,
      (mergeExecutionDateStep_proj g r).2.2.1]
  · rw [(mergeConditionsStep_proj _ r).2.2.2.1, (mergeSecuritiesStep_proj _ r).2.2.2.1,
      (mergePartiesStep_proj _ r).2.2.2.1, (mergeAmountStep_proj _ r).2.2.2.1,
      (mergeExecutionDateStep_proj g r).2.2.2.1]
  · rw [(mergeConditionsStep_proj _ r).2.2.2.2, (mergeSecuritiesStep_proj _ r).2.2.2.2,
      (mergePartiesStep_proj _ r).2.2.2.2, (mergeAmountStep_proj _ r).2.2.2.2,
      (mergeExecutionDateStep_proj g r).2.2.2.2]

/-- Claim C6 counterexample. The claim asserts that on any full-upsert
failure the adapter's minimal write guarantees a stub primary contract
node and a normal (non-raising) return.  But the fallback `session.run`
in the `except` block is itself an unguarded driver call: when it raises
too (e.g. the store stayed unreachable), the import call propagates that
exception and yields no node at all — `.error`, not any `.ok` node set. -/
theorem claim6_counterexample :
    importSecuritiesContractToNeo4j (.error "ServiceUnavailable")
        (.error "ServiceUnavailable")
        ⟨"Stub Contract", "Securities Purchase Agreement", some "s",
          none, none, [], [], []⟩ []
      = .error "ServiceUnavailable" ∧
    (importSecuritiesContractToNeo4j (.error "ServiceUnavailable")
        (.error "ServiceUnavailable")
        ⟨"Stub Contract", "Securities Purchase Agreement", some "s",
          none, none, [], [], []⟩ []).isOk = false :=
  ⟨rfl, rfl⟩

/-- Claim C6 amended. For every finalized record, if the full graph upsert
raises any exception, the adapter discards that failure (the original
exception is never re-raised: the outcome does not depend on it) and
instead performs the minimal write containing only the record's title,
contract type and summary; when that minimal write succeeds, the call
returns normally and the document yields at least a stub primary contract
node, but when the minimal write itself raises, that new exception
propagates and no stub node is guaranteed. -/
theorem claim6_minimal_write_on_failure :
    ∀ (e1 : String) (c : SecuritiesRec) (g : List String),
      (importSecuritiesContractToNeo4j (.error e1) (.ok ()) c g
        = .ok (mergeTitle g c.title,
            [WriteOp.minimal c.title c.contractType c.summary])) ∧
      c.title ∈ mergeTitle g c.title ∧
      (∀ (e1' : String) (mw : Except String Unit),
        importSecuritiesContractToNeo4j (.error e1) mw c g
          = importSecuritiesContractToNeo4j (.error e1') mw c g) ∧
      (∀ e2 : String,
        importSecuritiesContractToNeo4j (.error e1) (.error e2) c g = .error e2) := by
  intro e1 c g
  refine ⟨rfl, ?_, ?_, fun e2 => rfl⟩
  · unfold mergeTitle
    by_cases h : c.title ∈ g <;> simp [h]
  · intro e1' mw
    cases mw <;> rfl

/-- Fact: `String.append` acts as list append on the underlying data. -/
theorem string_data_append (s t : String) : (s ++ t).data = s.data ++ t.data := rfl

/-- Strings with equal underlying data are equal. -/
theorem string_data_inj {s t : String} (h : s.data = t.data) : s = t := by
  cases s
  cases t
  exact congrArg String.mk (by simpa using h)

/-- Cancellation for `a ++ x ++ b = a ++ y ++ b`. -/
theorem string_append_cancel {a b x y : String}
    (h : a ++ x ++ b = a ++ y ++ b) : x = y := by
  have hd : a.data ++ x.data ++ b.data = a.data ++ y.data ++ b.data := by
    have := congrArg String.data h
    simpa [string_data_append] using this
  exact string_data_inj
    (List.append_cancel_left (List.append_cancel_right hd))

/-- A truthy contract id yields the parenthesised title. -/
theorem rewriteTitle_of_ne {t c : String} (h : c ≠ "") :
    rewriteTitle t (some c) = t ++ " (" ++ c ++ ")" := if_neg h

/-- The rewritten titles for distinct non-empty contract ids are
distinct. -/
theorem rewriteTitle_inj {t c1 c2 : String} (h1 : c1 ≠ "") (h2 : c2 ≠ "")
    (hne : c1 ≠ c2) :
    rewriteTitle t (some c1) ≠ rewriteTitle t (some c2) := by
  rw [rewriteTitle_of_ne h1, rewriteTitle_of_ne h2]
  intro h
  exact hne (string_append_cancel h)

/-- Claim C9. For every contract ingested with a non-empty `contract_id`,
the record's title is rewritten to `"<extracted title> (<contract_id>)"`
before persistence; since the graph natural key is the title, ingesting
identical extracted text (identical extracted title) under two different
contract ids produces two distinct primary contract nodes, while
re-ingesting under the same contract id targets the same node. -/
theorem claim9_contract_id_in_natural_key :
    ∀ (extractedTitle cid1 cid2 : String), cid1 ≠ "" → cid2 ≠ "" →
      (rewriteTitle extractedTitle (some cid1)
          = extractedTitle ++ " (" ++ cid1 ++ ")") ∧
      (cid1 ≠ cid2 →
        (ingestContractTitles extractedTitle (some cid2)
            (ingestContractTitles extractedTitle (some cid1) [])).length = 2) ∧
      (ingestContractTitles extractedTitle (some cid1)
          (ingestContractTitles extractedTitle (some cid1) [])
        = ingestContractTitles extractedTitle (some cid1) []) := by
  intro t c1 c2 h1 h2
  have hbase : ∀ c : String,
      ingestContractTitles t (some c) [] = [rewriteTitle t (some c)] := by
    intro c
    simp [ingestContractTitles, mergeTitle]
  refine ⟨rewriteTitle_of_ne h1, ?_, ?_⟩
  · intro hne
    rw [hbase c1]
    have hne' : rewriteTitle t (some c2) ≠ rewriteTitle t (some c1) :=
      rewriteTitle_inj h2 h1 (Ne.symm hne)
    simp [ingestContractTitles, mergeTitle, hne']
  · rw [hbase c1]
    simp [ingestContractTitles, mergeTitle]

/-- Witness for C9: extracted title `"License Agreement"` ingested under
contract ids `"2022-A"` and `"2022-B"` yields two primary nodes; twice
under `"2022-A"` yields one. -/
theorem claim9_witness :
    (rewriteTitle "License Agreement" (some "2022-A")
        = "License Agreement (2022-A)") ∧
    ((ingestContractTitles "License Agreement" (some "2022-B")
        (ingestContractTitles "License Agreement" (some "2022-A") [])).length = 2) ∧
    (ingestContractTitles "License Agreement" (some "2022-A")
        (ingestContractTitles "License Agreement" (some "2022-A") [])
      = ingestContractTitles "License Agreement" (some "2022-A") []) := by
  have h := claim9_contract_id_in_natural_key "License Agreement" "2022-A" "2022-B"
    (by decide) (by decide)
  exact ⟨h.1, h.2.1 (by decide), h.2.2⟩

/-- Claim C10. For every file for which the cache reports a hit and
force-reprocess is off, processing that file performs no external action
at all (no text extraction, no generative-model call, no graph-store
write, no cache flush — the effect trace is empty), leaves the cache
unchanged (in particular the file's entry), appends exactly one
`from_cache=True` entry to the in-memory processed-files list, and counts
the file as successful. -/
theorem claim10_cache_hit_is_pure :
    ∀ (st : BatchState) (job : FileJob) (c : CacheEntry),
      cacheLookup st.cache job.path = some c →
      isContractCached st.cache job.path job.mtime = true →
      processSingleContract false st job =
        (⟨st.processedFiles ++
            [⟨job.path, c.contractId, c.title, c.contractType, c.metadata, true⟩],
          st.failedFiles, st.cache⟩, true, ([] : List BatchEffect)) := by
  intro st job c hc hcache
  unfold processSingleContract
  rw [if_pos (by simp [hcache]), hc]

/-- Witness for C10: a concrete one-entry cache state and a matching job. -/
theorem claim10_witness :
    processSingleContract false
      ⟨[], [],
        [("a.txt", ⟨"cid", "T", "ty", "s", "d", none, 1, 2, 3, "m", "p", some 50⟩)]⟩
      ⟨"a.txt", "txt", 50, "ignored", "meta", "cid2", "now", fun _ => .error "unused"⟩ =
      (⟨[⟨"a.txt", "cid", "T", "ty", "m", true⟩], [],
        [("a.txt", ⟨"cid", "T", "ty", "s", "d", none, 1, 2, 3, "m", "p", some 50⟩)]⟩,
       true, ([] : List BatchEffect)) := by
  have h := claim10_cache_hit_is_pure
    ⟨[], [],
      [("a.txt", ⟨"cid", "T", "ty", "s", "d", none, 1, 2, 3, "m", "p", some 50⟩)]⟩
    ⟨"a.txt", "txt", 50, "ignored", "meta", "cid2", "now", fun _ => .error "unused"⟩
    ⟨"cid", "T", "ty", "s", "d", none, 1, 2, 3, "m", "p", some 50⟩
    (by decide) (by decide)
  simpa using h

/-- A processing step appends one processed entry exactly when it returns
`True`. -/
theorem processSingle_processed_length (force : Bool) (st : BatchState)
    (job : FileJob) :
    (processSingleContract force st job).1.processedFiles.length
      = st.processedFiles.length +
        (if (processSingleContract force st job).2.1 = true then 1 else 0) := by
  unfold processSingleContract
  by_cases hA : (!force && isContractCached st.cache job.path job.mtime) = true
  · rw [if_pos hA]
    simp
  · rw [if_neg hA]
    by_cases hB : (job.text = "" ∨ pyLen (pyStrip job.text) < 100)
    · rw [if_pos hB]
      simp
    · rw [if_neg hB]
      cases hI : job.ingest (truncateContractText job.text) with
      | error e => simp
      | ok data => simp

/-- The batch loop invariant: the processed-files list grows by exactly
the success count. -/
theorem runBatchGo_count (force : Bool) :
    ∀ (jobs : List FileJob) (st : BatchState) (n : Nat),
      (runBatchGo force jobs st n).1.processedFiles.length + n
        = st.processedFiles.length + (runBatchGo force jobs st n).2 := by
  intro jobs
  induction jobs with
  | nil =>
    intro st n
    simp [runBatchGo]
  | cons job rest ih =>
    intro st n
    unfold runBatchGo
    have h2 := processSingle_processed_length force st job
    by_cases hs : (processSingleContract force st job).2.1 = true
    · rw [if_pos hs]
      rw [if_pos hs] at h2
      have h1 := ih (processSingleContract force st job).1 (n + 1)
      omega
    · rw [if_neg hs]
      rw [if_neg hs] at h2
      have h1 := ih (processSingleContract force st job).1 n
      omega

set_option maxRecDepth 40000 in
/-- Claim C7. In every batch run, a file whose extracted text fails the
100-character minimum (on the non-cached path) is skipped: the step
returns `False` and leaves the state untouched, so the file appears in
neither `processed_files` nor `failed_files` of the final report — an
outcome distinct from failed — and `successful_count` counts exactly the
fully completed (recorded) files.  In the concrete 10-file batch with 3
such files, the report shows 7 successful, 0 failed, and the 3 rejected
files in neither list. -/
theorem claim7_length_rejected_is_skipped_not_failed :
    (∀ (force : Bool) (st : BatchState) (job : FileJob),
      (!force && isContractCached st.cache job.path job.mtime) = false →
      (job.text = "" ∨ pyLen (pyStrip job.text) < 100) →
      processSingleContract force st job = (st, false, [BatchEffect.textExtract])) ∧
    (∀ (force : Bool) (st : BatchState) (jobs : List FileJob),
      (runBatch force st jobs).1.processedFiles.length
        = st.processedFiles.length + (runBatch force st jobs).2) ∧
    ((runBatch false ⟨[], [], []⟩ exampleBatchJobs).2 = 7 ∧
      (generateFinalReport (runBatch false ⟨[], [], []⟩ exampleBatchJobs).1 10
          (runBatch false ⟨[], [], []⟩ exampleBatchJobs).2).successfullyProcessed = 7 ∧
      (generateFinalReport (runBatch false ⟨[], [], []⟩ exampleBatchJobs).1 10
          (runBatch false ⟨[], [], []⟩ exampleBatchJobs).2).failedFilesCount = 0 ∧
      (runBatch false ⟨[], [], []⟩ exampleBatchJobs).1.failedFiles = [] ∧
      ((runBatch false ⟨[], [], []⟩ exampleBatchJobs).1.processedFiles.map
          ProcessedEntry.filePath) = ["f1", "f2", "f3", "f4", "f5", "f6", "f7"]) := by
  refine ⟨?_, ?_, ?_⟩
  · intro force st job hA hB
    unfold processSingleContract
    rw [if_neg (by simp [hA]), if_pos hB]
  · intro force st jobs
    have h := runBatchGo_count force jobs st 0
    unfold runBatch
    omega
  · refine ⟨by decide, by decide, by decide, by decide, by decide⟩

/-- Witness for C7: a concrete uncached short-text file is skipped with
the state unchanged. -/
theorem claim7_witness :
    processSingleContract false ⟨[], [], []⟩ (shortTextJob "s9")
      = (⟨[], [], []⟩, false, [BatchEffect.textExtract]) :=
  claim7_length_rejected_is_skipped_not_failed.1 false ⟨[], [], []⟩
    (shortTextJob "s9") (by decide) (by decide)

/-- When a needle has no occurrence at all, it is in particular not a
prefix. -/
theorem findSubIdx_none_isPrefixOf_false {n l : List Char}
    (h : findSubIdx n l = none) : n.isPrefixOf l = false := by
  cases l with
  | nil =>
    cases n with
    | nil => simp [findSubIdx] at h
    | cons a t => rfl
  | cons c t =>
    cases hp : n.isPrefixOf (c :: t) with
    | true => simp [findSubIdx, hp] at h
    | false => rfl

/-- With no `MATCH` anywhere in the cleaned generation, the generator
answers with the canonical fallback query. -/
theorem generateCypher_fallback_of_no_match {g : String} {limit : Nat}
    (h : findStr (pyUpper (cleanMarkdownFences g)) "MATCH" = none) :
    generateCypherQuery (.ok g) limit = fallbackCypherQuery limit := by
  have h' : findSubIdx "MATCH".data (pyUpper (cleanMarkdownFences g)).data = none := h
  have hsw : startsWithStr (pyUpper (cleanMarkdownFences g)) "MATCH" = false :=
    findSubIdx_none_isPrefixOf_false h'
  have ha : anchorAtMatch (cleanMarkdownFences g)
      = .error "No MATCH clause found in generated query" := by
    unfold anchorAtMatch
    rw [hsw, if_neg (by simp), h]
  show (match anchorAtMatch (cleanMarkdownFences g) with
    | Except.error _ => fallbackCypherQuery limit
    | Except.ok anchored =>
      match validateCypherKeywords anchored with
      | Except.error _ => fallbackCypherQuery limit
      | Except.ok validated => fixReturnClause validated) = fallbackCypherQuery limit
  rw [ha]

/-- Claim C2. For every natural-language question the query surface returns
a string and never propagates an exception (the model of `query_contracts`
matches every oracle failure exhaustively, so its result type carries no
exception); in particular, when Cypher generation yields a malformed query
(no anchor `MATCH` keyword anywhere in the cleaned generation) the
retrieval runs the hardcoded canonical fallback query, when executing the
generated query raises, the retrieval reruns the canonical fallback query,
and when even that query's execution raises, the surface still returns the
error string rather than raising. -/
theorem claim2_query_fallback_never_raises :
    ∀ (db : String → Except String (List LicenseRecord)) (generated : String)
      (llmAnswer : Except String String) (question : String) (limit : Nat),
      (findStr (pyUpper (cleanMarkdownFences generated)) "MATCH" = none →
        getRelevantContracts db (.ok generated) limit
          = (db (fallbackCypherQuery limit)).map (List.map postprocessMainRecord)) ∧
      (∀ e, db (generateCypherQuery (.ok generated) limit) = .error e →
        getRelevantContracts db (.ok generated) limit
          = (db (fallbackCypherQuery limit)).map (List.map postprocessFallbackRecord)) ∧
      (∀ e, findStr (pyUpper (cleanMarkdownFences generated)) "MATCH" = none →
        db (fallbackCypherQuery 10) = .error e →
        queryContracts db (.ok generated) llmAnswer question
          = "Error processing query: " ++ e ++
              ". Please try a simpler question or check the database connection.") := by
  intro db g ans q limit
  refine ⟨?_, ?_, ?_⟩
  · intro h
    unfold getRelevantContracts
    rw [generateCypher_fallback_of_no_match h]
    cases hdb : db (fallbackCypherQuery limit) with
    | ok recs => rfl
    | error e =>
      show getFallbackContracts db limit = _
      unfold getFallbackContracts
      rw [hdb]
      rfl
  · intro e he
    unfold getRelevantContracts
    rw [he]
    rfl
  · intro e h hdb
    have h1 : getRelevantContracts db (.ok g) 10 = .error e := by
      unfold getRelevantContracts
      rw [generateCypher_fallback_of_no_match h, hdb]
      show getFallbackContracts db 10 = _
      unfold getFallbackContracts
      rw [hdb]
      rfl
    unfold queryContracts
    rw [h1]

/-- Witness for C2: a database whose every execution raises and a
generation with no `MATCH` keyword still produce the error string. -/
theorem claim2_witness :
    queryContracts (fun _ => .error "boom") (.ok "no cypher at all")
        (.ok "answer") "what contracts exist?"
      = "Error processing query: " ++ "boom" ++
          ". Please try a simpler question or check the database connection." :=
  (claim2_query_fallback_never_raises (fun _ => .error "boom") "no cypher at all"
      (.ok "answer") "what contracts exist?" 10).2.2 "boom" (by decide) rfl

/-- Fact: `Except` bind on a success value reduces. -/
theorem except_ok_bind {α β : Type} (a : α) (f : α → Except String β) :
    (Except.ok a >>= f) = f a := rfl

/-- A well-formed match gives an ok `group(1)` access. -/
theorem getGroup1_ok {m : ReMatch} (h : GroupsOk m) :
    ∃ s, getGroup m 1 = .ok s := by
  obtain ⟨h1, h2⟩ := h
  cases hg : m.groups with
  | nil => exact absurd hg h1
  | cons a t =>
    have ha : a.isSome = true := h2 a (hg ▸ List.mem_cons_self a t)
    cases a with
    | none => simp at ha
    | some s => exact ⟨s, by simp [getGroup, hg]⟩

/-- A well-formed match with at least two groups gives an ok `group(2)`
access. -/
theorem getGroup2_ok {m : ReMatch} (h : GroupsOk m)
    (hlen : 2 ≤ m.groups.length) : ∃ s, getGroup m 2 = .ok s := by
  obtain ⟨-, h2⟩ := h
  have h1 : 1 < m.groups.length := hlen
  have hg : m.groups[1]? = some m.groups[1] := List.getElem?_eq_getElem h1
  have hs : m.groups[1].isSome = true := h2 _ (List.getElem_mem h1)
  cases a : m.groups[1] with
  | none => rw [a] at hs; simp at hs
  | some s => exact ⟨s, by simp [getGroup, hg, a]⟩

/-- Under a well-formed oracle the amount loop never raises. -/
theorem extractAmountGo_ok (env : ReEnv) (hWF : ReEnvWF env) (text : String) :
    ∀ ps, ∃ a, extractAmountGo env text ps = .ok a := by
  intro ps
  induction ps with
  | nil => exact ⟨none, rfl⟩
  | cons p rest ih =>
    cases hs : env.search p (pyTake 5000 text) with
    | none =>
      obtain ⟨a, ha⟩ := ih
      exact ⟨a, by simp only [extractAmountGo, hs]; exact ha⟩
    | some m =>
      obtain ⟨s, hg⟩ := getGroup1_ok (hWF.1 _ _ _ hs)
      cases hf : env.pyFloat (removeCommas s) with
      | none =>
        obtain ⟨a, ha⟩ := ih
        refine ⟨a, ?_⟩
        simp only [extractAmountGo, hs, hg, except_ok_bind, hf]
        exact ha
      | some v =>
        refine ⟨some (if containsStr (pyLower m.whole) "million" then v * 1000000
          else v), ?_⟩
        simp only [extractAmountGo, hs, hg, except_ok_bind, hf]

/-- Under a well-formed match the per-match party step never raises. -/
theorem processPartyMatch_ok {m : ReMatch} (h : GroupsOk m)
    (st : List Party × List String) :
    ∃ st', processPartyMatch st m = .ok st' := by
  obtain ⟨parties, seen⟩ := st
  by_cases hlen : m.groups.length ≥ 2
  · obtain ⟨s1, hg1⟩ := getGroup1_ok h
    obtain ⟨s2, hg2⟩ := getGroup2_ok h hlen
    simp only [processPartyMatch, if_pos hlen, hg1, hg2, except_ok_bind]
    split <;> exact ⟨_, rfl⟩
  · obtain ⟨s1, hg1⟩ := getGroup1_ok h
    simp only [processPartyMatch, if_neg hlen, hg1, except_ok_bind]
    split <;> exact ⟨_, rfl⟩

/-- The match loop over one party pattern never raises. -/
theorem forPartyMatches_ok :
    ∀ (ms : List ReMatch), (∀ m ∈ ms, GroupsOk m) →
    ∀ st, ∃ st', forPartyMatches ms st = .ok st' := by
  intro ms
  induction ms with
  | nil => exact fun _ st => ⟨st, rfl⟩
  | cons m rest ih =>
    intro hms st
    obtain ⟨st1, h1⟩ := processPartyMatch_ok (hms m (List.mem_cons_self m rest)) st
    obtain ⟨st2, h2⟩ := ih (fun x hx => hms x (List.mem_cons_of_mem m hx)) st1
    exact ⟨st2, by simp only [forPartyMatches, h1, except_ok_bind]; exact h2⟩

/-- The party pattern loop never raises. -/
theorem extractPartiesGo_ok (env : ReEnv) (hWF : ReEnvWF env) (text : String) :
    ∀ ps st, ∃ st', extractPartiesGo env text ps st = .ok st' := by
  intro ps
  induction ps with
  | nil => exact fun st => ⟨st, rfl⟩
  | cons p rest ih =>
    intro st
    obtain ⟨st1, h1⟩ := forPartyMatches_ok (env.finditer p (pyTake 2000 text))
      (fun m hm => hWF.2 _ _ _ hm) st
    obtain ⟨st2, h2⟩ := ih st1
    exact ⟨st2, by simp only [extractPartiesGo, h1, except_ok_bind]; exact h2⟩

/-- Party extraction never raises. -/
theorem extractParties_ok (env : ReEnv) (hWF : ReEnvWF env) (text : String) :
    ∃ l, extractParties env text = .ok l := by
  obtain ⟨st, h⟩ := extractPartiesGo_ok env hWF text partyPatterns ([], [])
  exact ⟨st.1, by simp only [extractParties, h, except_ok_bind]⟩

/-- The share-count loops never raise. -/
theorem extractSharesGo_ok (env : ReEnv) (hWF : ReEnvWF env) (text : String)
    (secType : String) :
    ∀ ps, ∃ r, extractSharesGo env text secType ps = .ok r := by
  intro ps
  induction ps with
  | nil => exact ⟨none, rfl⟩
  | cons p rest ih =>
    cases hs : env.search p (pyTake 5000 text) with
    | none =>
      obtain ⟨r, hr⟩ := ih
      exact ⟨r, by simp only [extractSharesGo, hs]; exact hr⟩
    | some m =>
      obtain ⟨s, hg⟩ := getGroup1_ok (hWF.1 _ _ _ hs)
      cases hi : env.pyInt (removeCommas s) with
      | none =>
        obtain ⟨r, hr⟩ := ih
        refine ⟨r, ?_⟩
        simp only [extractSharesGo, hs, hg, except_ok_bind, hi]
        exact hr
      | some shares =>
        exact ⟨some ⟨secType, some shares, none, none⟩,
          by simp only [extractSharesGo, hs, hg, except_ok_bind, hi]⟩

/-- The warrant loop never raises. -/
theorem extractWarrantGo_ok (env : ReEnv) (hWF : ReEnvWF env) (text : String) :
    ∀ ps, ∃ r, extractWarrantGo env text ps = .ok r := by
  intro ps
  induction ps with
  | nil => exact ⟨none, rfl⟩
  | cons p rest ih =>
    cases hs : env.search p (pyTake 5000 text) with
    | none =>
      obtain ⟨r, hr⟩ := ih
      exact ⟨r, by simp only [extractWarrantGo, hs]; exact hr⟩
    | some m =>
      obtain ⟨s, hg⟩ := getGroup1_ok (hWF.1 _ _ _ hs)
      cases hi : env.pyInt (removeCommas s) with
      | none =>
        obtain ⟨r, hr⟩ := ih
        refine ⟨r, ?_⟩
        simp only [extractWarrantGo, hs, hg, except_ok_bind, hi]
        exact hr
      | some warrants =>
        cases he : env.search exercisePricePattern (pyTake 5000 text) with
        | none =>
          exact ⟨some ⟨"warrant", some warrants, none, none⟩,
            by simp only [extractWarrantGo, hs, hg, except_ok_bind, hi, he]; rfl⟩
        | some em =>
          obtain ⟨es, heg⟩ := getGroup1_ok (hWF.1 _ _ _ he)
          exact ⟨some ⟨"warrant", some warrants, none,
              env.pyFloat (removeCommas es)⟩,
            by simp only [extractWarrantGo, hs, hg, except_ok_bind, hi, he, heg]; rfl⟩

/-- The price-per-share loop never raises. -/
theorem extractPriceGo_ok (env : ReEnv) (hWF : ReEnvWF env) (text : String)
    (securities : List RuleSecurity) :
    ∀ ps, ∃ r, extractPriceGo env text securities ps = .ok r := by
  intro ps
  induction ps with
  | nil => exact ⟨securities, rfl⟩
  | cons p rest ih =>
    cases hs : env.search p (pyTake 5000 text) with
    | none =>
      obtain ⟨r, hr⟩ := ih
      exact ⟨r, by simp only [extractPriceGo, hs]; exact hr⟩
    | some m =>
      obtain ⟨s, hg⟩ := getGroup1_ok (hWF.1 _ _ _ hs)
      cases hf : env.pyFloat (removeCommas s) with
      | none =>
        obtain ⟨r, hr⟩ := ih
        refine ⟨r, ?_⟩
        simp only [extractPriceGo, hs, hg, except_ok_bind, hf]
        exact hr
      | some price =>
        exact ⟨updateLast (fun s => {s with purchasePricePerShare := some price})
            securities,
          by simp only [extractPriceGo, hs, hg, except_ok_bind, hf]⟩

/-- Securities extraction never raises. -/
theorem extractSecuritiesInfo_ok (env : ReEnv) (hWF : ReEnvWF env)
    (text : String) : ∃ l, extractSecuritiesInfo env text = .ok l := by
  obtain ⟨s1, h1⟩ := extractSharesGo_ok env hWF text "common_stock" stockPatterns
  obtain ⟨s2, h2⟩ := extractSharesGo_ok env hWF text "preferred_stock" preferredPatterns
  obtain ⟨s3, h3⟩ := extractWarrantGo_ok env hWF text warrantPatterns
  obtain ⟨r, hr⟩ := extractPriceGo_ok env hWF text
    (s1.toList ++ s2.toList ++ s3.toList) pricePatterns
  refine ⟨r, ?_⟩
  simp only [extractSecuritiesInfo, h1, h2, h3, except_ok_bind]
  exact hr

/-- The per-match condition step never raises. -/
theorem processConditionMatch_ok (env : ReEnv) {m : ReMatch} (h : GroupsOk m)
    (acc : List RuleCondition) :
    ∃ acc', processConditionMatch env acc m = .ok acc' := by
  obtain ⟨s, hg⟩ := getGroup1_ok h
  exact ⟨acc ++ conditionsFromItems
      (env.splitOn conditionSplitPattern (pyStrip s)),
    by simp only [processConditionMatch, hg, except_ok_bind]⟩

/-- The match loop over one condition pattern never raises. -/
theorem forConditionMatches_ok (env : ReEnv) :
    ∀ (ms : List ReMatch), (∀ m ∈ ms, GroupsOk m) →
    ∀ acc, ∃ acc', forConditionMatches env ms acc = .ok acc' := by
  intro ms
  induction ms with
  | nil => exact fun _ acc => ⟨acc, rfl⟩
  | cons m rest ih =>
    intro hms acc
    obtain ⟨a1, h1⟩ := processConditionMatch_ok env (hms m (List.mem_cons_self m rest)) acc
    obtain ⟨a2, h2⟩ := ih (fun x hx => hms x (List.mem_cons_of_mem m hx)) a1
    exact ⟨a2, by simp only [forConditionMatches, h1, except_ok_bind]; exact h2⟩

/-- The condition pattern loop never raises. -/
theorem extractClosingConditionsGo_ok (env : ReEnv) (hWF : ReEnvWF env)
    (text : String) :
    ∀ ps acc, ∃ acc', extractClosingConditionsGo env text ps acc = .ok acc' := by
  intro ps
  induction ps with
  | nil => exact fun acc => ⟨acc, rfl⟩
  | cons p rest ih =>
    intro acc
    obtain ⟨a1, h1⟩ := forConditionMatches_ok env (env.finditer p (pyTake 8000 text))
      (fun m hm => hWF.2 _ _ _ hm) acc
    obtain ⟨a2, h2⟩ := ih a1
    exact ⟨a2, by simp only [extractClosingConditionsGo, h1, except_ok_bind]; exact h2⟩

/-- Closing-condition extraction never raises and its result is capped at
10 items. -/
theorem extractClosingConditions_ok (env : ReEnv) (hWF : ReEnvWF env)
    (text : String) :
    ∃ l, extractClosingConditions env text = .ok l ∧ l.length ≤ 10 := by
  obtain ⟨acc, h⟩ := extractClosingConditionsGo_ok env hWF text conditionPatterns []
  refine ⟨(addSpecificConditions text acc).take 10, ?_, ?_⟩
  · simp only [extractClosingConditions, h, except_ok_bind]
  · exact List.length_take_le 10 _

/-- With no date pattern matching, no execution date is extracted. -/
theorem extractExecutionDateGo_none (env : ReEnv) (text : String) :
    ∀ ps, (∀ p ∈ ps, env.search p (pyTake 3000 text) = none) →
      extractExecutionDateGo env text ps = none := by
  intro ps
  induction ps with
  | nil => exact fun _ => rfl
  | cons p rest ih =>
    intro h
    simp only [extractExecutionDateGo, h p (List.mem_cons_self p rest)]
    exact ih (fun x hx => h x (List.mem_cons_of_mem p hx))

/-- With no amount pattern matching, no amount is extracted. -/
theorem extractAmountGo_none (env : ReEnv) (text : String) :
    ∀ ps, (∀ p ∈ ps, env.search p (pyTake 5000 text) = none) →
      extractAmountGo env text ps = .ok none := by
  intro ps
  induction ps with
  | nil => exact fun _ => rfl
  | cons p rest ih =>
    intro h
    simp only [extractAmountGo, h p (List.mem_cons_self p rest)]
    exact ih (fun x hx => h x (List.mem_cons_of_mem p hx))

/-- With no party pattern matching, the party loop is a no-op. -/
theorem extractPartiesGo_noop (env : ReEnv) (text : String) :
    ∀ ps st, (∀ p ∈ ps, env.finditer p (pyTake 2000 text) = []) →
      extractPartiesGo env text ps st = .ok st := by
  intro ps
  induction ps with
  | nil => exact fun st _ => rfl
  | cons p rest ih =>
    intro st h
    simp only [extractPartiesGo, h p (List.mem_cons_self p rest), forPartyMatches,
      except_ok_bind]
    exact ih st (fun x hx => h x (List.mem_cons_of_mem p hx))

/-- With no share pattern matching, no share security is extracted. -/
theorem extractSharesGo_none (env : ReEnv) (text : String) (secType : String) :
    ∀ ps, (∀ p ∈ ps, env.search p (pyTake 5000 text) = none) →
      extractSharesGo env text secType ps = .ok none := by
  intro ps
  induction ps with
  | nil => exact fun _ => rfl
  | cons p rest ih =>
    intro h
    simp only [extractSharesGo, h p (List.mem_cons_self p rest)]
    exact ih (fun x hx => h x (List.mem_cons_of_mem p hx))

/-- With no warrant pattern matching, no warrant security is extracted. -/
theorem extractWarrantGo_none (env : ReEnv) (text : String) :
    ∀ ps, (∀ p ∈ ps, env.search p (pyTake 5000 text) = none) →
      extractWarrantGo env text ps = .ok none := by
  intro ps
  induction ps with
  | nil => exact fun _ => rfl
  | cons p rest ih =>
    intro h
    simp only [extractWarrantGo, h p (List.mem_cons_self p rest)]
    exact ih (fun x hx => h x (List.mem_cons_of_mem p hx))

/-- With no price pattern matching, the price loop is a no-op. -/
theorem extractPriceGo_noop (env : ReEnv) (text : String)
    (securities : List RuleSecurity) :
    ∀ ps, (∀ p ∈ ps, env.search p (pyTake 5000 text) = none) →
      extractPriceGo env text securities ps = .ok securities := by
  intro ps
  induction ps with
  | nil => exact fun _ => rfl
  | cons p rest ih =>
    intro h
    simp only [extractPriceGo, h p (List.mem_cons_self p rest)]
    exact ih (fun x hx => h x (List.mem_cons_of_mem p hx))

/-- With no condition pattern matching, the condition loop is a no-op. -/
theorem extractClosingConditionsGo_noop (env : ReEnv) (text : String) :
    ∀ ps acc, (∀ p ∈ ps, env.finditer p (pyTake 8000 text) = []) →
      extractClosingConditionsGo env text ps acc = .ok acc := by
  intro ps
  induction ps with
  | nil => exact fun acc _ => rfl
  | cons p rest ih =>
    intro acc h
    simp only [extractClosingConditionsGo, h p (List.mem_cons_self p rest),
      forConditionMatches, except_ok_bind]
    exact ih acc (fun x hx => h x (List.mem_cons_of_mem p hx))

/-- With no known condition keyword in the text, the keyword loop is a
no-op. -/
theorem addSpecificConditions_noop {text : String}
    (h : ∀ kd ∈ specificConditions, containsStr (pyLower text) kd.1 = false)
    (conds : List RuleCondition) : addSpecificConditions text conds = conds := by
  unfold addSpecificConditions
  have main : ∀ (l : List (String × String)),
      (∀ kd ∈ l, containsStr (pyLower text) kd.1 = false) →
      ∀ cs : List RuleCondition,
        l.foldl (fun acc kd =>
          if containsStr (pyLower text) kd.1 then
            acc ++ [⟨kd.2, false,
              if kd.1 = "board approval" ∨ kd.1 = "audit" then "company"
              else "third_party"⟩]
          else acc) cs = cs := by
    intro l
    induction l with
    | nil => exact fun _ _ => rfl
    | cons kd rest ih =>
      intro hl cs
      simp only [List.foldl]
      rw [if_neg (by simp [hl kd (List.mem_cons_self kd rest)])]
      exact ih (fun x hx => hl x (List.mem_cons_of_mem kd hx)) cs
  exact main specificConditions h conds

/-- Claim C8. For every well-formed regex oracle (as Python `re` is on the
extractor's patterns) and every input text, the rule-based extraction
stage terminates normally and never raises — its result is always `.ok`;
fields whose patterns fail to match are simply absent from the returned
partial record, and the closing-conditions list it returns never exceeds
10 items. -/
theorem claim8_rule_extraction_never_raises_capped :
    ∀ (env : ReEnv), ReEnvWF env → ∀ text : String,
      (extractWithRules env text).isOk = true ∧
      ∀ rd, extractWithRules env text = .ok rd →
        (∀ l, rd.closingConditions = some l → l.length ≤ 10) ∧
        ((∀ p ∈ datePatterns, env.search p (pyTake 3000 text) = none) →
          rd.executionDate = none) ∧
        ((∀ p ∈ amountPatterns, env.search p (pyTake 5000 text) = none) →
          rd.totalOfferingAmount = none) ∧
        ((∀ p ∈ partyPatterns, env.finditer p (pyTake 2000 text) = []) →
          rd.parties = none) ∧
        ((∀ p ∈ stockPatterns ++ preferredPatterns ++ warrantPatterns ++ pricePatterns,
            env.search p (pyTake 5000 text) = none) →
          rd.securities = none) ∧
        ((∀ p ∈ conditionPatterns, env.finditer p (pyTake 8000 text) = []) →
          (∀ kd ∈ specificConditions, containsStr (pyLower text) kd.1 = false) →
          rd.closingConditions = none) := by
  intro env hWF text
  obtain ⟨a, ha⟩ := extractAmountGo_ok env hWF text amountPatterns
  obtain ⟨ps, hps⟩ := extractParties_ok env hWF text
  obtain ⟨secs, hsecs⟩ := extractSecuritiesInfo_ok env hWF text
  obtain ⟨conds, hconds, hlen⟩ := extractClosingConditions_ok env hWF text
  have hrw : extractWithRules env text = .ok ⟨extractExecutionDate env text, a,
      if ps.isEmpty then none else some ps,
      if secs.isEmpty then none else some secs,
      if conds.isEmpty then none else some conds⟩ := by
    simp only [extractWithRules, ha, hps, hsecs, hconds, except_ok_bind]
  refine ⟨by rw [hrw]; rfl, ?_⟩
  intro rd hrd
  rw [hrw] at hrd
  injection hrd with hrd
  subst hrd
  refine ⟨?_, ?_, ?_, ?_, ?_, ?_⟩
  · intro l hl
    by_cases hc : conds.isEmpty
    · rw [show (⟨extractExecutionDate env text, a,
          if ps.isEmpty then none else some ps,
          if secs.isEmpty then none else some secs,
          if conds.isEmpty then none else some conds⟩ : RuleData).closingConditions
          = if conds.isEmpty then none else some conds from rfl, if_pos hc] at hl
      cases hl
    · rw [show (⟨extractExecutionDate env text, a,
          if ps.isEmpty then none else some ps,
          if secs.isEmpty then none else some secs,
          if conds.isEmpty then none else some conds⟩ : RuleData).closingConditions
          = if conds.isEmpty then none else some conds from rfl, if_neg hc] at hl
      obtain rfl : conds = l := Option.some.inj hl
      exact hlen
  · intro hd
    show extractExecutionDate env text = none
    exact extractExecutionDateGo_none env text datePatterns hd
  · intro hno
    show a = none
    have hn := extractAmountGo_none env text amountPatterns hno
    rw [ha] at hn
    exact Except.ok.inj hn
  · intro hp
    show (if ps.isEmpty then none else some ps) = none
    have hgo := extractPartiesGo_noop env text partyPatterns ([], []) hp
    have : extractParties env text = .ok [] := by
      simp only [extractParties, hgo, except_ok_bind]
    rw [hps] at this
    obtain rfl : ps = [] := Except.ok.inj this
    rfl
  · intro hall
    show (if secs.isEmpty then none else some secs) = none
    have h1 : extractSharesGo env text "common_stock" stockPatterns = .ok none :=
      extractSharesGo_none env text _ _
        (fun x hx => hall x (List.mem_append.mpr (Or.inl (List.mem_append.mpr
          (Or.inl (List.mem_append.mpr (Or.inl hx)))))))
    have h2 : extractSharesGo env text "preferred_stock" preferredPatterns = .ok none :=
      extractSharesGo_none env text _ _
        (fun x hx => hall x (List.mem_append.mpr (Or.inl (List.mem_append.mpr
          (Or.inl (List.mem_append.mpr (Or.inr hx)))))))
    have h3 : extractWarrantGo env text warrantPatterns = .ok none :=
      extractWarrantGo_none env text _
        (fun x hx => hall x (List.mem_append.mpr (Or.inl (List.mem_append.mpr
          (Or.inr hx)))))
    have h4 : extractPriceGo env text [] pricePatterns = .ok [] :=
      extractPriceGo_noop env text [] _
        (fun x hx => hall x (List.mem_append.mpr (Or.inr hx)))
    have : extractSecuritiesInfo env text = .ok [] := by
      simp only [extractSecuritiesInfo, h1, h2, h3, except_ok_bind, Option.toList]
      simpa using h4
    rw [hsecs] at this
    obtain rfl : secs = [] := Except.ok.inj this
    rfl
  · intro hcp hkw
    show (if conds.isEmpty then none else some conds) = none
    have hgo := extractClosingConditionsGo_noop env text conditionPatterns [] hcp
    have : extractClosingConditions env text = .ok [] := by
      simp only [extractClosingConditions, hgo, except_ok_bind,
        addSpecificConditions_noop hkw]
      rfl
    rw [hconds] at this
    obtain rfl : conds = [] := Except.ok.inj this
    rfl

/-- Witness for C8: the all-failing (trivially well-formed) oracle on a
concrete text still yields an `.ok` partial record. -/
theorem claim8_witness :
    (extractWithRules emptyReEnv "a short sample contract").isOk = true :=
  (claim8_rule_extraction_never_raises_capped emptyReEnv
    ⟨fun p t m h => by simp [emptyReEnv] at h,
     fun p t m hm => by simp [emptyReEnv] at hm⟩
    "a short sample contract").1

end ContRAG
